import Mathlib

/-!
Shallow embedding of the iFlow extraction-and-classification pipeline
(`src/services/xmlExtraction/baseExtractor.js`, `persistenceExtractor.js`
— which also contains the adapter and security extractors —,
`errorHandlingExtractor.js`, and
`src/services/processing/baseProcessor.js`, `securityProcessor.js`).

JavaScript objects are embedded as Lean structures; fields that may be
`undefined` become `Option`; arrays become `List`; the xml2js output shape
(`prop.key._`, `prop.value._`) is embedded as `Option String` fields.
JavaScript truthiness on strings ( `''` is falsy ) is made explicit with
`jsOrElse` / truthiness helpers, and string-key objects built by repeated
assignment are embedded as association lists through `objInsert`.
-/

/-- A JavaScript primitive value, for processor-level records whose fields
may carry non-string data. -/
inductive JVal where
  | vStr (s : String)
  | vNum (n : Int)
  | vBool (b : Bool)
  | vUndef
deriving DecidableEq, Repr

/-- JavaScript truthiness of a `JVal` ( `''`, `0`, `false`, `undefined` are falsy). -/
def jvTruthy : JVal → Bool
  | .vStr s => s ≠ ""
  | .vNum n => n ≠ 0
  | .vBool b => b
  | .vUndef => false

/-- A structural prefix test on character lists (kernel-reducible, unlike
the position-based `String` primitives). -/
def charsStartWith : List Char → List Char → Bool
  | _, [] => true
  | [], _ :: _ => false
  | c :: cs, d :: ds => c = d && charsStartWith cs ds

/-- A structural substring test on character lists. -/
def charsContain : List Char → List Char → Bool
  | [], pat => pat.isEmpty
  | c :: cs, pat => charsStartWith (c :: cs) pat || charsContain cs pat

/-- Embeds `String.prototype.includes`: substring containment, true for the
empty needle. -/
def jsIncludes (s pat : String) : Bool :=
  charsContain s.data pat.data

/-- Embeds `String.prototype.toLowerCase` (character-wise, ASCII-faithful). -/
def jsToLower (s : String) : String :=
  String.mk (s.data.map Char.toLower)

/-- Embeds `String.prototype.endsWith`. -/
def jsEndsWith (s pat : String) : Bool :=
  charsStartWith s.data.reverse pat.data.reverse

/-- Embeds `a || b` on JavaScript strings: `''` is falsy, so it falls through to `b`. -/
def jsOrElse (a b : String) : String :=
  if a = "" then b else a

/-- Embeds `a || b` where `a` may be `undefined` (`none`) or an empty (falsy) string. -/
def jsOptOrElse (a : Option String) (b : String) : String :=
  jsOrElse (a.getD "") b

/-- Truthiness of a possibly-undefined string. -/
def jsTruthyOptStr (a : Option String) : Bool :=
  a.getD "" ≠ ""

/-- JavaScript object property assignment `obj[k] = v` on a string-keyed
object embedded as an association list: an existing key is updated in place,
a new key is appended. -/
def objInsert {α : Type} : List (String × α) → String → α → List (String × α)
  | [], k, v => [(k, v)]
  | (k', v') :: rest, k, v =>
      if k' = k then (k, v) :: rest else (k', v') :: objInsert rest k v

/-- JavaScript object property read `obj[k]`, `none` for a missing key. -/
def objGet {α : Type} (obj : List (String × α)) (k : String) : Option α :=
  (obj.find? (fun kv => kv.1 = k)).map (fun kv => kv.2)

/-- The keys of an embedded JavaScript object. -/
def objKeys {α : Type} (obj : List (String × α)) : List String :=
  obj.map (fun kv => kv.1)

/-! ## The parsed document tree (xml2js output, as the extractors read it) -/

/-- One `ifl:property` node: `key` is `prop.key._` (absent when the `key`
child or its text is missing), `val` is `prop.value._` (absent when the
`value` child is missing; a `value` child without text reads as `''`). -/
structure IflProperty where
  key : Option String
  val : Option String
deriving DecidableEq, Repr

/-- One `bpmn2:messageFlow` fragment. `ext` is `none` when the flow has no
`bpmn2:extensionElements`; otherwise it is the array-normalized
`ifl:property` list. -/
structure MessageFlow where
  id : Option String
  name : Option String
  ext : Option (List IflProperty)
deriving DecidableEq, Repr

/-- A `bpmn2:startEvent` inside a subprocess; `errorRef` of the
`bpmn2:errorEventDefinition` child when one exists. -/
structure StartEvent where
  id : Option String
  name : Option String
  errorEventDef : Option (Option String)
deriving DecidableEq, Repr

/-- A `bpmn2:endEvent`: which event-definition children are present. -/
structure EndEvent where
  hasMessageDef : Bool
  hasEscalationDef : Bool
deriving DecidableEq, Repr

/-- A `bpmn2:subProcess` node. -/
structure SubProcess where
  id : Option String
  name : Option String
  props : List IflProperty
  startEvents : List StartEvent
  endEvents : List EndEvent
deriving DecidableEq, Repr

/-- A `bpmn2:scriptTask` or `bpmn2:serviceTask`; `script` is the
`bpmn2:script` child when it is a string. -/
structure TaskNode where
  id : Option String
  name : Option String
  props : List IflProperty
  script : Option String
deriving DecidableEq, Repr

/-- A `bpmn2:callActivity` node. -/
structure CallActivity where
  id : Option String
  name : Option String
  calledElement : Option String
deriving DecidableEq, Repr

/-- A `bpmn2:process` node with the children the extractors visit. -/
structure ProcessNode where
  id : Option String
  name : Option String
  props : List IflProperty
  scriptTasks : List TaskNode
  serviceTasks : List TaskNode
  callActivities : List CallActivity
  subProcesses : List SubProcess
deriving DecidableEq, Repr

/-- The `bpmn2:collaboration` node: its message flows (array-normalized)
and, when `bpmn2:extensionElements` is present, its `ifl:property` list. -/
structure Collaboration where
  messageFlows : List MessageFlow
  ext : Option (List IflProperty)
deriving DecidableEq, Repr

/-- Embeds `bpmn2:definitions`. -/
structure Definitions where
  collaboration : Option Collaboration
  processes : List ProcessNode
deriving DecidableEq, Repr

/-- A parsed document; `definitions` is `none` when `bpmn2:definitions`
is absent. -/
structure ParsedXml where
  definitions : Option Definitions
deriving DecidableEq, Repr

/-! ## BaseXmlExtractor (`baseExtractor.js`) -/

/-- Embeds `getPropertyValue`: exact match on `prop.key._`, then
`property.value._ || ''`, and `''` when no property matches. -/
def getPropertyValue (propertyArray : List IflProperty) (targetKey : String) : String :=
  match propertyArray.find? (fun p => p.key = some targetKey) with
  | some property => property.val.getD ""
  | none => ""

/-- Embeds `getMessageFlows`: empty for a missing definitions/collaboration node. -/
def getMessageFlows (parsedXml : ParsedXml) : List MessageFlow :=
  match parsedXml.definitions with
  | none => []
  | some defs =>
    match defs.collaboration with
    | none => []
    | some collab => collab.messageFlows

/-- Embeds `getCollaborationProperties`: empty for a missing
definitions/collaboration/extensionElements node. -/
def getCollaborationProperties (parsedXml : ParsedXml) : List IflProperty :=
  match parsedXml.definitions with
  | none => []
  | some defs =>
    match defs.collaboration with
    | none => []
    | some collab => collab.ext.getD []

/-! ## Security extractor (`persistenceExtractor.js`, `SecurityExtractor`) -/

/-- One extracted security mechanism; `configuration` is the JavaScript
configuration object (string and boolean values appear). -/
structure SecMech where
  mechanism_name : String
  mechanism_type : String
  direction : String
  configuration : List (String × JVal)
deriving DecidableEq, Repr

/-- Embeds `collectSecurityConfiguration`: keeps properties whose lowercased key
contains one of the security-related substrings (the `userRole`,
`clientCertificates` and `maximumBodySize` needles contain upper-case
letters exactly as in the source, so they can never match a lowercased key). -/
def collectSecurityConfiguration (properties : List IflProperty) : List (String × JVal) :=
  properties.foldl (fun acc p =>
    match p.key with
    | some key =>
      if key ≠ "" then
        let value := p.val.getD ""
        if jsIncludes (jsToLower key) "auth" ||
           jsIncludes (jsToLower key) "certificate" ||
           jsIncludes (jsToLower key) "credential" ||
           jsIncludes (jsToLower key) "security" ||
           jsIncludes (jsToLower key) "ssl" ||
           jsIncludes (jsToLower key) "tls" ||
           jsIncludes (jsToLower key) "userRole" ||
           jsIncludes (jsToLower key) "clientCertificates" ||
           jsIncludes (jsToLower key) "xsrf" ||
           jsIncludes (jsToLower key) "maximumBodySize" then
          objInsert acc key (JVal.vStr value)
        else acc
      else acc
    | none => acc) []

/-- Embeds `processAuthenticationMechanism`: a truthy, non-`'None'` auth method
yields one record, named `adapterName_authMethod`, with the mechanism type
normalized by substring checks and the security direction inverted from
the adapter direction (Sender → Inbound, otherwise Outbound). -/
def processAuthenticationMechanism (authMethod adapterName direction componentType : String)
    (properties : List IflProperty) : List SecMech :=
  if authMethod ≠ "" ∧ authMethod ≠ "None" then
    let mechanismType :=
      if jsIncludes authMethod "ClientCertificate" || jsIncludes authMethod "Client Certificate" then
        "Client Certificate"
      else if jsIncludes authMethod "Basic" then "Basic Authentication"
      else if jsIncludes authMethod "OAuth" then "OAuth"
      else if jsIncludes authMethod "SAML" then "SAML"
      else if jsIncludes authMethod "JWT" then "JWT"
      else authMethod
    let securityConfig :=
      objInsert (collectSecurityConfiguration properties) "componentType" (JVal.vStr componentType)
    let securityDirection := if direction = "Sender" then "Inbound" else "Outbound"
    [{ mechanism_name := adapterName ++ "_" ++ authMethod,
       mechanism_type := mechanismType,
       direction := securityDirection,
       configuration := securityConfig }]
  else []

/-- Embeds `processAdditionalSecurity`: CSRF, private-key alias, disabled XSRF and
user-role checks, each pushing an independent record. The private-key-alias
branch fires for every Receiver with a truthy alias — there is no check
whether the primary authentication method already produced a
Client Certificate record. -/
def processAdditionalSecurity (properties : List IflProperty)
    (adapterName direction componentType : String) : List SecMech :=
  let csrf :=
    if getPropertyValue properties "isCSRFEnabled" = "true" then
      [{ mechanism_name := adapterName ++ "_CSRF",
         mechanism_type := "CSRF Protection",
         direction := "Outbound",
         configuration := [("csrfEnabled", JVal.vBool true),
                           ("componentType", JVal.vStr componentType)] : SecMech }]
    else []
  let privateKeyAlias :=
    jsOrElse (getPropertyValue properties "privateKeyAlias")
      (getPropertyValue properties "odataCertAuthPrivateKeyAlias")
  let clientCert :=
    if privateKeyAlias ≠ "" ∧ direction = "Receiver" then
      [{ mechanism_name := adapterName ++ "_ClientCert",
         mechanism_type := "Client Certificate",
         direction := "Outbound",
         configuration := [("privateKeyAlias", JVal.vStr privateKeyAlias),
                           ("certificateAuthentication", JVal.vBool true),
                           ("componentType", JVal.vStr componentType)] : SecMech }]
    else []
  let xsrf :=
    if getPropertyValue properties "xsrfProtection" = "0" ∧ direction = "Sender" then
      [{ mechanism_name := adapterName ++ "_XSRF_Disabled",
         mechanism_type := "XSRF Protection",
         direction := "Inbound",
         configuration := [("xsrfProtection", JVal.vBool false),
                           ("componentType", JVal.vStr componentType)] : SecMech }]
    else []
  let userRole := getPropertyValue properties "userRole"
  let authz :=
    if userRole ≠ "" ∧ direction = "Sender" then
      [{ mechanism_name := adapterName ++ "_Authorization",
         mechanism_type := "Role-Based Authorization",
         direction := "Inbound",
         configuration := [("userRole", JVal.vStr userRole),
                           ("componentType", JVal.vStr componentType)] : SecMech }]
    else []
  csrf ++ clientCert ++ xsrf ++ authz

/-- The per-flow body of `extractMessageFlowSecurity` (the `forEach`
callback): an early return for a flow without `extensionElements`,
otherwise the primary-auth records followed by the additional-security
records. -/
def messageFlowSecurityOne (index : Nat) (flow : MessageFlow) : List SecMech :=
  match flow.ext with
  | none => []
  | some properties =>
    let direction := jsOrElse (getPropertyValue properties "direction") "Unknown"
    let adapterName :=
      jsOrElse (getPropertyValue properties "Name")
        (jsOptOrElse flow.id ("Adapter_" ++ toString index))
    let componentType := jsOrElse (getPropertyValue properties "ComponentType") "Unknown"
    let authMethod :=
      if direction = "Sender" then getPropertyValue properties "senderAuthType"
      else if direction = "Receiver" then getPropertyValue properties "authenticationMethod"
      else ""
    processAuthenticationMechanism authMethod adapterName direction componentType properties ++
      processAdditionalSecurity properties adapterName direction componentType

/-- Indexed traversal of the message flows. -/
def messageFlowSecurityAux : Nat → List MessageFlow → List SecMech
  | _, [] => []
  | i, flow :: rest => messageFlowSecurityOne i flow ++ messageFlowSecurityAux (i + 1) rest

/-- Embeds `extractMessageFlowSecurity`. -/
def extractMessageFlowSecurity (parsedXml : ParsedXml) : List SecMech :=
  messageFlowSecurityAux 0 (getMessageFlows parsedXml)

/-- Embeds `extractCollaborationSecurity`: CORS, exception handling, logging and
server-trace pseudo-records from the collaboration properties. -/
def extractCollaborationSecurity (parsedXml : ParsedXml) (flowId : String) : List SecMech :=
  (getCollaborationProperties parsedXml).foldl (fun acc p =>
    match p.key with
    | some key =>
      if key ≠ "" then
        let value := p.val.getD ""
        let corsRecs :=
          if key = "corsEnabled" ∧ value = "true" then
            [{ mechanism_name := flowId ++ "_CORS",
               mechanism_type := "CORS",
               direction := "Inbound",
               configuration := [("corsEnabled", JVal.vBool true)] : SecMech }]
          else []
        let excRecs :=
          if key = "returnExceptionToSender" then
            [{ mechanism_name := flowId ++ "_ExceptionHandling",
               mechanism_type := "Exception Handling",
               direction := "Inbound",
               configuration :=
                 [("returnExceptionToSender", JVal.vBool (value = "true")),
                  ("securityImplication", JVal.vStr
                    (if value = "false" then "Prevents information disclosure"
                     else "May expose internal errors"))] : SecMech }]
          else []
        let logRecs :=
          if key = "log" then
            [{ mechanism_name := flowId ++ "_SecurityLogging",
               mechanism_type := "Security Logging",
               direction := "Inbound",
               configuration := [("logLevel", JVal.vStr value),
                                 ("auditTrail", JVal.vBool true)] : SecMech }]
          else []
        let traceRecs :=
          if key = "ServerTrace" then
            [{ mechanism_name := flowId ++ "_ServerTrace",
               mechanism_type := "Debug Security",
               direction := "Inbound",
               configuration :=
                 [("serverTrace", JVal.vBool (value = "true")),
                  ("securityRisk", JVal.vStr
                    (if value = "true" then "May expose sensitive data in traces"
                     else "Safe for production"))] : SecMech }]
          else []
        acc ++ corsRecs ++ excRecs ++ logRecs ++ traceRecs
      else acc
    | none => acc) []

/-- Embeds `extractSecurity`: empty for a document without `bpmn2:definitions`,
otherwise the message-flow records followed by the collaboration records. -/
def extractSecurity (parsedXml : ParsedXml) (flowId : String) : List SecMech :=
  match parsedXml.definitions with
  | none => []
  | some _ => extractMessageFlowSecurity parsedXml ++ extractCollaborationSecurity parsedXml flowId

/-! ## Adapter extractor (`persistenceExtractor.js`, `AdapterExtractor`) -/

/-- Minimal JSON string escaping used by `JSON.stringify` on the
string-valued `contentProps` object. -/
def jsonEscape (s : String) : String :=
  s.data.foldl (fun acc c =>
    if c = '\\' then acc ++ "\\\\"
    else if c = '"' then acc ++ "\\\""
    else if c = '\n' then acc ++ "\\n"
    else acc ++ String.singleton c) ""

/-- Embeds `JSON.stringify` of a flat string-valued object. -/
def jsonStringifyFlat (obj : List (String × String)) : String :=
  "\x7b" ++ String.intercalate ","
    (obj.map (fun kv => "\"" ++ jsonEscape kv.1 ++ "\":\"" ++ jsonEscape kv.2 ++ "\"")) ++ "\x7d"

/-- The resource metadata nested in the adapter configuration. -/
structure ResourceMetadata where
  name : String
  cmdVariantUri : String
  componentType : String
deriving DecidableEq, Repr

/-- The canonical adapter record produced by `processMessageFlow`. -/
structure AdapterRec where
  adapter_name : String
  adapter_type : String
  adapter_category : String
  direction : String
  configuration_content : String
  configuration_resourceMetadata : ResourceMetadata
deriving DecidableEq, Repr

/-- Embeds `processMessageFlow`: `none` when the flow has no `extensionElements`
or when both `ComponentType` and `direction` resolve to `'Unknown'`. -/
def processMessageFlow (flow : MessageFlow) (index : Nat) : Option AdapterRec :=
  match flow.ext with
  | none => none
  | some properties =>
    let adapterName :=
      jsOrElse (getPropertyValue properties "Name")
        (jsOptOrElse flow.id ("Adapter_" ++ toString index))
    let adapterType := jsOrElse (getPropertyValue properties "ComponentType") "Unknown"
    let adapterCategory := jsOrElse (getPropertyValue properties "direction") "Unknown"
    if adapterType = "Unknown" ∧ adapterCategory = "Unknown" then none
    else
      let cmdVariantUri := jsOrElse (getPropertyValue properties "cmdVariantUri") "N/A"
      let contentProps := properties.foldl (fun acc p =>
        match p.key, p.val with
        | some key, some v => if key ≠ "" then objInsert acc key v else acc
        | _, _ => acc) []
      let contentProps :=
        match flow.id with
        | some i => if i ≠ "" then objInsert contentProps "id" i else contentProps
        | none => contentProps
      let contentProps :=
        if adapterName ≠ "" then objInsert contentProps "name" adapterName else contentProps
      some { adapter_name := adapterName,
             adapter_type := adapterType,
             adapter_category := adapterCategory,
             direction := adapterCategory,
             configuration_content := jsonStringifyFlat contentProps,
             configuration_resourceMetadata :=
               { name := adapterName,
                 cmdVariantUri := cmdVariantUri,
                 componentType := adapterType } }

/-- Indexed map-and-filter over the message flows (`map` + `filter(resource !== null)`). -/
def extractAdaptersAux : Nat → List MessageFlow → List AdapterRec
  | _, [] => []
  | i, flow :: rest =>
    match processMessageFlow flow i with
    | some r => r :: extractAdaptersAux (i + 1) rest
    | none => extractAdaptersAux (i + 1) rest

/-- Embeds `extractAdapters`: empty for a missing `bpmn2:definitions` node and for
a document with zero message flows. -/
def extractAdapters (parsedXml : ParsedXml) : List AdapterRec :=
  match parsedXml.definitions with
  | none => []
  | some _ => extractAdaptersAux 0 (getMessageFlows parsedXml)

/-! ## Error-handling extractor (`errorHandlingExtractor.js`) -/

/-- An error start event record. -/
structure ErrStartEvent where
  id : String
  name : String
  errorRef : String
deriving DecidableEq, Repr

/-- An error subprocess record. -/
structure ErrSubprocess where
  id : String
  name : String
  type : String
  errorStartEvents : List ErrStartEvent
  classification : String
deriving DecidableEq, Repr

/-- A try/catch pattern record. -/
structure TryCatchPattern where
  id : String
  name : String
  type : String
  errorHandlingProps : List (String × String)
deriving DecidableEq, Repr

/-- The transaction information record. -/
structure TransactionInfo where
  transactionTimeout : String
  transactionalHandling : String
  supportsRollback : Bool
deriving DecidableEq, Repr

/-- One per-process entry of the error-handling details object; fields the
source sets conditionally are `Option`s. -/
structure ProcessEHEntry where
  processName : String
  hasErrorHandling : Bool
  errorSubprocesses : Option (List ErrSubprocess) := none
  tryCatchPatterns : Option (List TryCatchPattern) := none
  transactionHandling : Option TransactionInfo := none
deriving DecidableEq, Repr

/-- The error-handling configuration. `processDetails` is the single key the
source ever manages to put into `error_handling_details` (the
collaboration-level branches crash before writing theirs, see
`collabErrorHandlingStep`). -/
structure ErrorHandlingCfg where
  detection_enabled : Bool
  logging_enabled : Bool
  classification_enabled : Bool
  reporting_enabled : Bool
  details_processDetails : Option (List (String × ProcessEHEntry))
deriving DecidableEq, Repr

/-- Embeds `getDefaultErrorHandling`. -/
def getDefaultErrorHandling : ErrorHandlingCfg :=
  { detection_enabled := false,
    logging_enabled := false,
    classification_enabled := false,
    reporting_enabled := false,
    details_processDetails := none }

/-- The partial result of `extractCollaborationErrorHandling`, an object
whose fields are set branch by branch (`{}` to start). -/
structure CollabEH where
  reporting_enabled : Option Bool := none
  logging_enabled : Option Bool := none
  detection_enabled : Option Bool := none
deriving DecidableEq, Repr

/-- One iteration of the `forEach` in `extractCollaborationErrorHandling`.
Each matching branch first sets its boolean on the local accumulator and
then writes `errorHandling.error_handling_details.<key>` — but the local
accumulator was initialized as the bare object literal with no
`error_handling_details` member, so that write is a property assignment on
`undefined` and raises a `TypeError`. -/
def collabErrorHandlingStep (acc : CollabEH) (p : IflProperty) : Except String CollabEH :=
  match p.key with
  | some key =>
    if key ≠ "" then
      if key = "returnExceptionToSender" then
        .error "TypeError: Cannot set properties of undefined"
      else if key = "log" then
        .error "TypeError: Cannot set properties of undefined"
      else if key = "ServerTrace" then
        .error "TypeError: Cannot set properties of undefined"
      else .ok acc
    else .ok acc
  | none => .ok acc

/-- Embeds `extractCollaborationErrorHandling`: folds the collaboration properties,
propagating the `TypeError` of any matching branch. -/
def extractCollaborationErrorHandling (parsedXml : ParsedXml) : Except String CollabEH :=
  (getCollaborationProperties parsedXml).foldlM collabErrorHandlingStep {}

/-- Embeds `findErrorStartEvents`. -/
def findErrorStartEvents (subProcess : SubProcess) : List ErrStartEvent :=
  subProcess.startEvents.foldl (fun acc se =>
    match se.errorEventDef with
    | some errorRef =>
      acc ++ [{ id := jsOptOrElse se.id "UnknownErrorEvent",
                name := jsOptOrElse se.name "Error Start Event",
                errorRef := jsOptOrElse errorRef "UnknownError" }]
    | none => acc) []

/-- Embeds `classifyErrorHandling`. -/
def classifyErrorHandling (subProcess : SubProcess) : String :=
  if subProcess.endEvents.isEmpty then "Basic"
  else if subProcess.endEvents.any (fun e => e.hasMessageDef) then "Response-based"
  else if subProcess.endEvents.any (fun e => e.hasEscalationDef) then "Escalation-based"
  else "Standard"

/-- Embeds `findErrorSubprocesses`. -/
def findErrorSubprocesses (process : ProcessNode) : List ErrSubprocess :=
  process.subProcesses.foldl (fun acc sp =>
    let activityType :=
      (sp.props.find? (fun p => p.key = some "activityType")).bind (fun p => p.val)
    match activityType with
    | some actType =>
      if actType ≠ "" ∧ jsIncludes actType "Error" then
        acc ++ [{ id := jsOptOrElse sp.id "UnknownSubProcess",
                  name := jsOptOrElse sp.name (jsOptOrElse sp.id "UnknownSubProcess"),
                  type := actType,
                  errorStartEvents := findErrorStartEvents sp,
                  classification := classifyErrorHandling sp }]
      else acc
    | none => acc) []

/-- The error/exception/retry key test of `findTryCatchPatterns`. -/
def isErrorHandlingProp (p : IflProperty) : Bool :=
  match p.key with
  | some k =>
    jsIncludes (jsToLower k) "error" || jsIncludes (jsToLower k) "exception" || jsIncludes (jsToLower k) "retry"
  | none => false

/-- Embeds `findTryCatchPatterns`. -/
def findTryCatchPatterns (process : ProcessNode) : List TryCatchPattern :=
  process.serviceTasks.foldl (fun acc task =>
    if task.props.any isErrorHandlingProp then
      acc ++ [{ id := jsOptOrElse task.id "UnknownTask",
                name := jsOptOrElse task.name "Service Task",
                type := "ServiceTask",
                errorHandlingProps :=
                  (task.props.filter isErrorHandlingProp).map
                    (fun p => (p.key.getD "", p.val.getD "")) }]
    else acc) []

/-- Embeds `extractTransactionInfo`. -/
def extractTransactionInfo (process : ProcessNode) : Option TransactionInfo :=
  let transactionTimeout :=
    (process.props.find? (fun p => p.key = some "transactionTimeout")).bind (fun p => p.val)
  let transactionalHandling :=
    (process.props.find? (fun p => p.key = some "transactionalHandling")).bind (fun p => p.val)
  if jsTruthyOptStr transactionTimeout || jsTruthyOptStr transactionalHandling then
    some { transactionTimeout := jsOptOrElse transactionTimeout "Not specified",
           transactionalHandling := jsOptOrElse transactionalHandling "Not specified",
           supportsRollback := transactionalHandling = some "Required" }
  else none

/-- The per-process body of `extractProcessErrorHandling`, threading the
`processDetails` object. -/
def processErrorHandlingOne (details : List (String × ProcessEHEntry)) (index : Nat)
    (process : ProcessNode) : List (String × ProcessEHEntry) :=
  let processId := jsOptOrElse process.id ("Process_" ++ toString index)
  let processName := jsOptOrElse process.name processId
  let errorSubprocesses := findErrorSubprocesses process
  let details :=
    if errorSubprocesses.length > 0 then
      objInsert details processId
        { processName := processName,
          errorSubprocesses := some errorSubprocesses,
          hasErrorHandling := true }
    else details
  let tryCatchPatterns := findTryCatchPatterns process
  let details :=
    if tryCatchPatterns.length > 0 then
      match objGet details processId with
      | some entry =>
        objInsert details processId { entry with tryCatchPatterns := some tryCatchPatterns }
      | none =>
        objInsert details processId
          { processName := processName,
            hasErrorHandling := true,
            tryCatchPatterns := some tryCatchPatterns }
    else details
  match extractTransactionInfo process with
  | some transactionInfo =>
    (match objGet details processId with
     | some entry =>
       objInsert details processId { entry with transactionHandling := some transactionInfo }
     | none =>
       objInsert details processId
         { processName := processName,
           hasErrorHandling := false,
           transactionHandling := some transactionInfo })
  | none => details

/-- Indexed traversal for `extractProcessErrorHandling`. -/
def processErrorHandlingAux : List (String × ProcessEHEntry) → Nat → List ProcessNode →
    List (String × ProcessEHEntry)
  | details, _, [] => details
  | details, i, p :: rest => processErrorHandlingAux (processErrorHandlingOne details i p) (i + 1) rest

/-- Embeds `extractProcessErrorHandling`. -/
def extractProcessErrorHandling (parsedXml : ParsedXml) : List (String × ProcessEHEntry) :=
  match parsedXml.definitions with
  | none => []
  | some defs => processErrorHandlingAux [] 0 defs.processes

/-- Embeds `mergeErrorHandlingDetails`. -/
def mergeErrorHandlingDetails (errorHandling : ErrorHandlingCfg)
    (processDetails : List (String × ProcessEHEntry)) : ErrorHandlingCfg :=
  if processDetails.length > 0 then
    let hasErrorSubprocesses := processDetails.any (fun kv =>
      match kv.2.errorSubprocesses with
      | some l => l.length > 0
      | none => false)
    let eh :=
      if hasErrorSubprocesses then
        { errorHandling with detection_enabled := true, classification_enabled := true }
      else errorHandling
    let hasTryCatch := processDetails.any (fun kv =>
      match kv.2.tryCatchPatterns with
      | some l => l.length > 0
      | none => false)
    let eh := if hasTryCatch then { eh with logging_enabled := true } else eh
    { eh with details_processDetails := some processDetails }
  else errorHandling

/-- Embeds `extractErrorHandling`: the outer try/catch returns the default
configuration when the collaboration pass raises its `TypeError`; the
`CollabEH` overrides in the non-raising case are always empty because every
branch of the collaboration pass raises before returning. -/
def extractErrorHandling (parsedXml : ParsedXml) : ErrorHandlingCfg :=
  match parsedXml.definitions with
  | none => getDefaultErrorHandling
  | some _ =>
    match extractCollaborationErrorHandling parsedXml with
    | .error _ => getDefaultErrorHandling
    | .ok collab =>
      let eh := getDefaultErrorHandling
      let eh := { eh with
        reporting_enabled := collab.reporting_enabled.getD eh.reporting_enabled,
        logging_enabled := collab.logging_enabled.getD eh.logging_enabled,
        detection_enabled := collab.detection_enabled.getD eh.detection_enabled }
      mergeErrorHandlingDetails eh (extractProcessErrorHandling parsedXml)

/-! ## Persistence extractor (`persistenceExtractor.js`, `PersistenceExtractor`) -/

/-- A JMS adapter configuration record. -/
structure JmsConfig where
  name : String
  type : String
  properties : List (String × String)
deriving DecidableEq, Repr

/-- A message-persistence configuration record. -/
structure MsgPersistConfig where
  adapterName : String
  componentType : String
  enabled : Bool
  configuration : List (String × String)
deriving DecidableEq, Repr

/-- A data-store operation record. -/
structure DataStoreConfig where
  adapterName : String
  componentType : String
  operation : String
  enabled : Bool
  configuration : List (String × String)
deriving DecidableEq, Repr

/-- A data-store activity found in a process; `properties` keeps the raw
key/value projection including possibly-missing keys. -/
structure DsActivity where
  id : String
  name : String
  type : String
  activityType : Option String
  properties : List (Option String × String)
deriving DecidableEq, Repr

/-- A variable operation record. -/
structure VarOpRec where
  id : String
  name : String
  type : String
  operation : String
deriving DecidableEq, Repr

/-- An external call record. -/
structure ExtCallRec where
  id : String
  name : String
  calledElement : Option String
  activityType : Option String
deriving DecidableEq, Repr

/-- The `persistence_details` object. -/
structure PersistenceDetails where
  jmsAdapters : List JmsConfig
  messagePersistence : List MsgPersistConfig
  dataStoreOperations : List DataStoreConfig
  dataStoreActivities : List DsActivity
  variableOperations : List VarOpRec
  externalCalls : List ExtCallRec
  transactionalHandling : String
  processType : String
  directCall : Bool
deriving DecidableEq, Repr

/-- The persistence configuration. `Object.assign` of the collaboration
pass writes `transactionalHandling`, `processType` and `directCall` as new
top-level keys of the persistence object (not into `persistence_details`);
those stray keys are the three trailing `Option` fields. -/
structure PersistenceCfg where
  jms_enabled : Bool
  data_store_enabled : Bool
  variables_enabled : Bool
  message_persistence_enabled : Bool
  persistence_details : PersistenceDetails
  topLevelTransactionalHandling : Option String := none
  topLevelProcessType : Option String := none
  topLevelDirectCall : Option Bool := none
deriving DecidableEq, Repr

/-- Embeds `getDefaultPersistence`. -/
def getDefaultPersistence : PersistenceCfg :=
  { jms_enabled := false,
    data_store_enabled := false,
    variables_enabled := false,
    message_persistence_enabled := false,
    persistence_details :=
      { jmsAdapters := [],
        messagePersistence := [],
        dataStoreOperations := [],
        dataStoreActivities := [],
        variableOperations := [],
        externalCalls := [],
        transactionalHandling := "None",
        processType := "undefined",
        directCall := false } }

/-- The object built by `extractCollaborationPersistence` (keys set
conditionally while iterating the collaboration properties). -/
structure CollabPersistence where
  transactionalHandling : Option String := none
  message_persistence_enabled : Option Bool := none
  processType : Option String := none
  directCall : Option Bool := none
deriving DecidableEq, Repr

/-- One iteration of the `forEach` in `extractCollaborationPersistence`. -/
def collabPersistenceStep (acc : CollabPersistence) (p : IflProperty) : CollabPersistence :=
  match p.key with
  | some key =>
    if key ≠ "" then
      let value := p.val.getD ""
      let acc :=
        if key = "transactionalHandling" then
          let acc := { acc with transactionalHandling := some value }
          if value ≠ "" ∧ value ≠ "None" then
            { acc with message_persistence_enabled := some true }
          else acc
        else acc
      let acc :=
        if key = "processType" then
          { acc with processType := some value, directCall := some (value = "ProcessDirect") }
        else acc
      if key = "messagePersistenceEnabled" ∨ key = "persist" then
        { acc with message_persistence_enabled := some (value = "true") }
      else acc
    else acc
  | none => acc

/-- Embeds `extractCollaborationPersistence`. -/
def extractCollaborationPersistence (parsedXml : ParsedXml) : CollabPersistence :=
  (getCollaborationProperties parsedXml).foldl collabPersistenceStep {}

/-- Embeds `Object.assign(persistence, collaborationPersistence)`: present keys
override; three of them land as stray top-level keys. -/
def assignCollabPersistence (p : PersistenceCfg) (c : CollabPersistence) : PersistenceCfg :=
  { p with
    message_persistence_enabled := c.message_persistence_enabled.getD p.message_persistence_enabled,
    topLevelTransactionalHandling :=
      match c.transactionalHandling with
      | some v => some v
      | none => p.topLevelTransactionalHandling,
    topLevelProcessType :=
      match c.processType with
      | some v => some v
      | none => p.topLevelProcessType,
    topLevelDirectCall :=
      match c.directCall with
      | some v => some v
      | none => p.topLevelDirectCall }

/-- The data-store key test of `findDataStoreActivities` (and of
`extractDataStoreConfiguration`): `datastore`, `data_store` or `store`
as lowercased-substring of the key. -/
def isDataStoreKey (k : String) : Bool :=
  jsIncludes (jsToLower k) "datastore" || jsIncludes (jsToLower k) "data_store" ||
    jsIncludes (jsToLower k) "store"

/-- Embeds `findDataStoreActivities`. -/
def findDataStoreActivities (process : ProcessNode) : List DsActivity :=
  let fromScript := process.scriptTasks.foldl (fun acc task =>
    let hasDataStore := task.props.any (fun p =>
      match p.key with
      | some k => isDataStoreKey k
      | none => false)
    if hasDataStore then
      acc ++ [{ id := jsOptOrElse task.id "UnknownTask",
                name := jsOptOrElse task.name "Data Store Activity",
                type := "ScriptTask",
                activityType := none,
                properties := task.props.map (fun p => (p.key, p.val.getD "")) }]
    else acc) []
  process.serviceTasks.foldl (fun acc task =>
    let activityType :=
      (task.props.find? (fun p => p.key = some "activityType")).bind (fun p => p.val)
    match activityType with
    | some actType =>
      if actType ≠ "" ∧ (jsIncludes actType "DataStore" || jsIncludes actType "Store") then
        acc ++ [{ id := jsOptOrElse task.id "UnknownTask",
                  name := jsOptOrElse task.name "Data Store Operation",
                  type := "ServiceTask",
                  activityType := some actType,
                  properties := task.props.map (fun p => (p.key, p.val.getD "")) }]
      else acc
    | none => acc) fromScript

/-- Embeds `determineVariableOperation`. -/
def determineVariableOperation (properties : List IflProperty) (script : Option String) : String :=
  let operationProp := properties.find? (fun p =>
    match p.key with
    | some k => jsIncludes (jsToLower k) "operation" || jsIncludes (jsToLower k) "action"
    | none => false)
  match operationProp with
  | some p =>
    if jsTruthyOptStr p.val then p.val.getD ""
    else determineFromScript script
  | none => determineFromScript script
where
  determineFromScript : Option String → String
  | some s =>
    if jsIncludes s "setProperty" || jsIncludes s "setHeader" then "Set Variable"
    else if jsIncludes s "getProperty" || jsIncludes s "getHeader" then "Get Variable"
    else if jsIncludes s "removeProperty" || jsIncludes s "removeHeader" then "Remove Variable"
    else "Variable Operation"
  | none => "Variable Operation"

/-- Embeds `findVariableOperations`. -/
def findVariableOperations (process : ProcessNode) : List VarOpRec :=
  let fromScript := process.scriptTasks.foldl (fun acc task =>
    let hasVariables := task.props.any (fun p =>
      match p.key with
      | some k =>
        jsIncludes (jsToLower k) "variable" || jsIncludes (jsToLower k) "header" ||
          jsIncludes (jsToLower k) "property"
      | none => false)
    let hasVariableInScript :=
      match task.script with
      | some s =>
        jsIncludes s "setProperty" || jsIncludes s "getProperty" ||
          jsIncludes s "setHeader" || jsIncludes s "getHeader"
      | none => false
    if hasVariables || hasVariableInScript then
      acc ++ [{ id := jsOptOrElse task.id "UnknownTask",
                name := jsOptOrElse task.name "Variable Operation",
                type := "ScriptTask",
                operation := determineVariableOperation task.props task.script }]
    else acc) []
  process.serviceTasks.foldl (fun acc task =>
    let activityType :=
      (task.props.find? (fun p => p.key = some "activityType")).bind (fun p => p.val)
    match activityType with
    | some actType =>
      if actType ≠ "" ∧ (jsIncludes actType "ContentModifier" || jsIncludes actType "Variable") then
        acc ++ [{ id := jsOptOrElse task.id "UnknownTask",
                  name := jsOptOrElse task.name "Content Modifier",
                  type := "ServiceTask",
                  operation := actType }]
      else acc
    | none => acc) fromScript

/-- Embeds `findExternalCalls`. -/
def findExternalCalls (process : ProcessNode) : List ExtCallRec :=
  let fromCalls := process.callActivities.foldl (fun acc activity =>
    match activity.calledElement with
    | some calledElement =>
      if calledElement ≠ "" then
        acc ++ [{ id := jsOptOrElse activity.id "UnknownCall",
                  name := jsOptOrElse activity.name calledElement,
                  calledElement := some calledElement,
                  activityType := none }]
      else acc
    | none => acc) []
  process.serviceTasks.foldl (fun acc task =>
    let activityType :=
      (task.props.find? (fun p => p.key = some "activityType")).bind (fun p => p.val)
    match activityType with
    | some actType =>
      if actType ≠ "" ∧ (jsIncludes actType "External" || jsIncludes actType "Request Reply") then
        acc ++ [{ id := jsOptOrElse task.id "UnknownTask",
                  name := jsOptOrElse task.name "External Call",
                  calledElement := none,
                  activityType := some actType }]
      else acc
    | none => acc) fromCalls

/-- The process-level persistence details gathered by `extractProcessPersistence`. -/
structure ProcessPersistence where
  dataStoreActivities : List DsActivity
  variableOperations : List VarOpRec
  externalCalls : List ExtCallRec
deriving DecidableEq, Repr

/-- Embeds `extractProcessPersistence`. -/
def extractProcessPersistence (parsedXml : ParsedXml) : ProcessPersistence :=
  match parsedXml.definitions with
  | none => { dataStoreActivities := [], variableOperations := [], externalCalls := [] }
  | some defs =>
    defs.processes.foldl (fun acc process =>
      { dataStoreActivities := acc.dataStoreActivities ++ findDataStoreActivities process,
        variableOperations := acc.variableOperations ++ findVariableOperations process,
        externalCalls := acc.externalCalls ++ findExternalCalls process })
      { dataStoreActivities := [], variableOperations := [], externalCalls := [] }

/-- The collecting step of `extractJMSConfiguration`: keeps a property whose
lowercased key contains `jms`, `queue` or `topic`. -/
def jmsPropertiesStep (acc : List (String × String)) (p : IflProperty) :
    List (String × String) :=
  match p.key with
  | some key =>
    if key ≠ "" then
      if jsIncludes (jsToLower key) "jms" || jsIncludes (jsToLower key) "queue" ||
          jsIncludes (jsToLower key) "topic" then
        objInsert acc key (p.val.getD "")
      else acc
    else acc
  | none => acc

/-- Embeds `extractJMSConfiguration`: `none` when no JMS-related property exists. -/
def extractJMSConfiguration (properties : List IflProperty) (adapterName : String) :
    Option JmsConfig :=
  let jmsProperties := properties.foldl jmsPropertiesStep []
  if jmsProperties.length > 0 then
    some { name := adapterName, type := "JMS", properties := jmsProperties }
  else none

/-- Embeds `extractMessagePersistenceConfiguration`. -/
def extractMessagePersistenceConfiguration (properties : List IflProperty)
    (adapterName componentType : String) : Option MsgPersistConfig :=
  let persistenceConfig := properties.foldl (fun acc p =>
    match p.key with
    | some key =>
      if key ≠ "" then
        if jsIncludes (jsToLower key) "persist" || jsIncludes (jsToLower key) "durable" ||
            jsIncludes (jsToLower key) "reliable" then
          objInsert acc key (p.val.getD "")
        else acc
      else acc
    | none => acc) []
  let hasPersistence := persistenceConfig.length > 0 ||
    (jsIncludes (jsToLower componentType) "jms" || jsIncludes (jsToLower componentType) "queue" ||
      jsIncludes (jsToLower componentType) "reliable")
  if hasPersistence then
    some { adapterName := adapterName, componentType := componentType,
           enabled := true, configuration := persistenceConfig }
  else none

/-- The sequential flag/config/operation state of `extractDataStoreConfiguration`. -/
def dataStoreFold (properties : List IflProperty) :
    Bool × List (String × String) × String :=
  properties.foldl (fun acc p =>
    match p.key with
    | some key =>
      if key ≠ "" then
        if isDataStoreKey key then
          let cfg := objInsert acc.2.1 key (p.val.getD "")
          let op :=
            if jsIncludes (jsToLower key) "get" || jsIncludes (jsToLower key) "select" then "Get"
            else if jsIncludes (jsToLower key) "put" || jsIncludes (jsToLower key) "write" then "Put"
            else if jsIncludes (jsToLower key) "delete" then "Delete"
            else acc.2.2
          (true, cfg, op)
        else acc
      else acc
    | none => acc) (false, [], "Unknown")

/-- Embeds `extractDataStoreConfiguration`. -/
def extractDataStoreConfiguration (properties : List IflProperty)
    (adapterName componentType : String) : Option DataStoreConfig :=
  let folded := dataStoreFold properties
  let hasDataStore := folded.1 ||
    (jsIncludes (jsToLower componentType) "datastore" || jsIncludes (jsToLower componentType) "store")
  if hasDataStore then
    some { adapterName := adapterName, componentType := componentType,
           operation := folded.2.2, enabled := true, configuration := folded.2.1 }
  else none

/-- The adapter-level persistence details gathered by `extractAdapterPersistence`. -/
structure AdapterPersistence where
  jmsAdapters : List JmsConfig
  messagePersistence : List MsgPersistConfig
  dataStoreOperations : List DataStoreConfig
deriving DecidableEq, Repr

/-- The per-flow body of the `forEach` in `extractAdapterPersistence`. -/
def adapterPersistenceOne (acc : AdapterPersistence) (index : Nat) (flow : MessageFlow) :
    AdapterPersistence :=
  match flow.ext with
  | none => acc
  | some properties =>
    let componentType := jsOrElse (getPropertyValue properties "ComponentType") "Unknown"
    let adapterName :=
      jsOrElse (getPropertyValue properties "Name")
        (jsOptOrElse flow.id ("Adapter_" ++ toString index))
    let acc :=
      if jsIncludes (jsToLower componentType) "jms" then
        match extractJMSConfiguration properties adapterName with
        | some jmsConfig => { acc with jmsAdapters := acc.jmsAdapters ++ [jmsConfig] }
        | none => acc
      else acc
    let acc :=
      match extractMessagePersistenceConfiguration properties adapterName componentType with
      | some cfg => { acc with messagePersistence := acc.messagePersistence ++ [cfg] }
      | none => acc
    match extractDataStoreConfiguration properties adapterName componentType with
    | some cfg => { acc with dataStoreOperations := acc.dataStoreOperations ++ [cfg] }
    | none => acc

/-- Indexed traversal for `extractAdapterPersistence`. -/
def adapterPersistenceAux : AdapterPersistence → Nat → List MessageFlow → AdapterPersistence
  | acc, _, [] => acc
  | acc, i, flow :: rest => adapterPersistenceAux (adapterPersistenceOne acc i flow) (i + 1) rest

/-- Embeds `extractAdapterPersistence`. -/
def extractAdapterPersistence (parsedXml : ParsedXml) : AdapterPersistence :=
  adapterPersistenceAux { jmsAdapters := [], messagePersistence := [], dataStoreOperations := [] }
    0 (getMessageFlows parsedXml)

/-- The duck-typed `details` argument of `mergePersistenceDetails`: a field
the caller's object does not have behaves as an absent (hence empty/falsy)
member. -/
structure MergeDetails where
  jmsAdapters : List JmsConfig := []
  messagePersistence : List MsgPersistConfig := []
  dataStoreOperations : List DataStoreConfig := []
  dataStoreActivities : List DsActivity := []
  variableOperations : List VarOpRec := []
  externalCalls : List ExtCallRec := []
  transactionalHandling : Option String := none
  processType : Option String := none
  directCall : Option Bool := none
deriving DecidableEq, Repr

/-- Block 1 of `mergePersistenceDetails`: JMS adapters. -/
def mergeJmsStep (p : PersistenceCfg) (d : MergeDetails) : PersistenceCfg :=
  if d.jmsAdapters.length > 0 then
    { p with jms_enabled := true,
             persistence_details := { p.persistence_details with
               jmsAdapters := p.persistence_details.jmsAdapters ++ d.jmsAdapters } }
  else p

/-- Block 2 of `mergePersistenceDetails`: message persistence. -/
def mergeMsgPersistStep (p : PersistenceCfg) (d : MergeDetails) : PersistenceCfg :=
  if d.messagePersistence.length > 0 then
    { p with message_persistence_enabled := true,
             persistence_details := { p.persistence_details with
               messagePersistence :=
                 p.persistence_details.messagePersistence ++ d.messagePersistence } }
  else p

/-- Block 3 of `mergePersistenceDetails`: data-store operations. -/
def mergeDataStoreOpsStep (p : PersistenceCfg) (d : MergeDetails) : PersistenceCfg :=
  if d.dataStoreOperations.length > 0 then
    { p with data_store_enabled := true,
             persistence_details := { p.persistence_details with
               dataStoreOperations :=
                 p.persistence_details.dataStoreOperations ++ d.dataStoreOperations } }
  else p

/-- Block 4 of `mergePersistenceDetails`: data-store activities. -/
def mergeDataStoreActsStep (p : PersistenceCfg) (d : MergeDetails) : PersistenceCfg :=
  if d.dataStoreActivities.length > 0 then
    { p with data_store_enabled := true,
             persistence_details := { p.persistence_details with
               dataStoreActivities :=
                 p.persistence_details.dataStoreActivities ++ d.dataStoreActivities } }
  else p

/-- Block 5 of `mergePersistenceDetails`: variable operations. -/
def mergeVarOpsStep (p : PersistenceCfg) (d : MergeDetails) : PersistenceCfg :=
  if d.variableOperations.length > 0 then
    { p with variables_enabled := true,
             persistence_details := { p.persistence_details with
               variableOperations :=
                 p.persistence_details.variableOperations ++ d.variableOperations } }
  else p

/-- Block 6 of `mergePersistenceDetails`: external calls. -/
def mergeExtCallsStep (p : PersistenceCfg) (d : MergeDetails) : PersistenceCfg :=
  if d.externalCalls.length > 0 then
    { p with persistence_details := { p.persistence_details with
               externalCalls := p.persistence_details.externalCalls ++ d.externalCalls } }
  else p

/-- Blocks 7–9 of `mergePersistenceDetails`: the scalar detail fields. -/
def mergeScalarsStep (p : PersistenceCfg) (d : MergeDetails) : PersistenceCfg :=
  let p :=
    if jsTruthyOptStr d.transactionalHandling then
      { p with persistence_details := { p.persistence_details with
                 transactionalHandling := d.transactionalHandling.getD "" } }
    else p
  let p :=
    if jsTruthyOptStr d.processType then
      { p with persistence_details := { p.persistence_details with
                 processType := d.processType.getD "" } }
    else p
  match d.directCall with
  | some dc => { p with persistence_details := { p.persistence_details with directCall := dc } }
  | none => p

/-- Embeds `mergePersistenceDetails`: each block appends records and raises
the matching boolean only when the source list is non-empty; the trailing
blocks overwrite the scalar detail fields when present. -/
def mergePersistenceDetails (persistence : PersistenceCfg) (details : MergeDetails) :
    PersistenceCfg :=
  mergeScalarsStep
    (mergeExtCallsStep
      (mergeVarOpsStep
        (mergeDataStoreActsStep
          (mergeDataStoreOpsStep
            (mergeMsgPersistStep
              (mergeJmsStep persistence details) details) details) details) details) details)
    details

/-- The `details` view of the process-level pass. -/
def processPersistenceDetails (pp : ProcessPersistence) : MergeDetails :=
  { dataStoreActivities := pp.dataStoreActivities,
    variableOperations := pp.variableOperations,
    externalCalls := pp.externalCalls }

/-- The `details` view of the adapter-level pass. -/
def adapterPersistenceDetails (ap : AdapterPersistence) : MergeDetails :=
  { jmsAdapters := ap.jmsAdapters,
    messagePersistence := ap.messagePersistence,
    dataStoreOperations := ap.dataStoreOperations }

/-- Embeds `extractPersistence`: the default for a missing `bpmn2:definitions`
node; otherwise the collaboration assignment followed by the two additive
merges. -/
def extractPersistence (parsedXml : ParsedXml) : PersistenceCfg :=
  match parsedXml.definitions with
  | none => getDefaultPersistence
  | some _ =>
    let persistence :=
      assignCollabPersistence getDefaultPersistence (extractCollaborationPersistence parsedXml)
    let persistence :=
      mergePersistenceDetails persistence
        (processPersistenceDetails (extractProcessPersistence parsedXml))
    mergePersistenceDetails persistence
      (adapterPersistenceDetails (extractAdapterPersistence parsedXml))

/-! ## BaseProcessor (`baseProcessor.js`) and SecurityProcessor (`securityProcessor.js`) -/

/-- A raw security-mechanism record as the processor receives it: the
identifying fields are arbitrary JavaScript values, the configuration may be
absent. -/
structure RawMechanism where
  mechanism_name : JVal
  mechanism_type : JVal
  direction : JVal
  configuration : Option (List (String × JVal))
deriving DecidableEq, Repr

/-- Field read `data[field]` on a raw record. -/
def rawField (m : RawMechanism) : String → JVal
  | "mechanism_name" => m.mechanism_name
  | "mechanism_type" => m.mechanism_type
  | "direction" => m.direction
  | _ => JVal.vUndef

/-- Embeds `validateRequiredFields`: a field passes when it is truthy — any truthy
non-string value (a number, `true`, …) passes. -/
def validateRequiredFields (data : RawMechanism) (requiredFields : List String) : Bool :=
  requiredFields.all (fun field => jvTruthy (rawField data field))

/-- Embeds `String.prototype.trim` structurally: strips whitespace from
both ends. -/
def jsTrim (s : String) : String :=
  String.mk (((s.data.dropWhile Char.isWhitespace).reverse.dropWhile
    Char.isWhitespace).reverse)

/-- Embeds `sanitizeString`: every falsy or non-string value maps to `''`;
a string is trimmed and truncated at the (truthy) maximum length. -/
def sanitizeString (value : JVal) (maxLength : Option Nat) : String :=
  match value with
  | .vStr s =>
    if s = "" then ""
    else
      let sanitized := jsTrim s
      match maxLength with
      | some m =>
        if m ≠ 0 ∧ sanitized.data.length > m then String.mk (sanitized.data.take m)
        else sanitized
      | none => sanitized
  | _ => ""

/-- The `typeMapping` table of `normalizeSecurityType`, in source order. -/
def typeMapping : List (String × String) :=
  [("ClientCertificate", "Client Certificate"),
   ("Client Certificate", "Client Certificate"),
   ("BasicAuthentication", "Basic Authentication"),
   ("Basic Authentication", "Basic Authentication"),
   ("OAuth", "OAuth"),
   ("OAuth2", "OAuth"),
   ("SAML", "SAML"),
   ("JWT", "JWT"),
   ("None", "None"),
   ("CSRF Protection", "CSRF Protection"),
   ("XSRF Protection", "XSRF Protection"),
   ("CORS", "CORS"),
   ("Role-Based Authorization", "Role-Based Authorization"),
   ("Exception Handling", "Exception Handling"),
   ("Security Logging", "Security Logging"),
   ("Debug Security", "Debug Security")]

/-- The table stage of `normalizeSecurityType`: the exact table match, then
the first entry matching by case-insensitive substring in either direction,
and otherwise the sanitized input itself falls through. -/
def normalizeSanitized (sanitized : String) : String :=
  match objGet typeMapping sanitized with
  | some v => v
  | none =>
    match typeMapping.find? (fun kv =>
        jsIncludes (jsToLower sanitized) (jsToLower kv.1) ||
          jsIncludes (jsToLower kv.1) (jsToLower sanitized)) with
    | some kv => kv.2
    | none => sanitized

/-- Embeds `normalizeSecurityType`: `'Unknown'` for a falsy input, then the
table lookup on the sanitized input. -/
def normalizeSecurityType (mechanismType : JVal) : String :=
  if jvTruthy mechanismType = false then "Unknown"
  else normalizeSanitized (sanitizeString mechanismType (some 100))

/-- Embeds `mechanism.configuration?.<key>` — `undefined` when the configuration or
the key is absent. -/
def cfgField (m : RawMechanism) (k : String) : JVal :=
  match m.configuration with
  | none => JVal.vUndef
  | some cfg => (objGet cfg k).getD JVal.vUndef

/-- Embeds `x?.toLowerCase() || ''`: `''` for a nullish `x`, the lowercased string
for a string, and a `TypeError` for any other value (no `toLowerCase`
method). -/
def jsToLowerOrEmpty : JVal → Except String String
  | .vStr s => .ok (jsOrElse (jsToLower s) "")
  | .vUndef => .ok ""
  | _ => .error "TypeError: toLowerCase is not a function"

/-- Embeds `determineSecurityDirection`: the explicit direction field when it
sanitizes to `Inbound`/`Outbound`, then substring heuristics on the
mechanism type, then the Client-Certificate configuration heuristics, and
`Inbound` as default. -/
def determineSecurityDirection (mechanism : RawMechanism) : Except String String :=
  let fromDirection :=
    if jvTruthy mechanism.direction then
      let direction := sanitizeString mechanism.direction (some 50)
      if direction = "Inbound" ∨ direction = "Outbound" then some direction else none
    else none
  match fromDirection with
  | some d => .ok d
  | none =>
    match jsToLowerOrEmpty mechanism.mechanism_type with
    | .error e => .error e
    | .ok mechanismType =>
      if jsIncludes mechanismType "sender" || jsIncludes mechanismType "authorization" ||
          jsIncludes mechanismType "cors" || jsIncludes mechanismType "exception handling" ||
          jsIncludes mechanismType "logging" then
        .ok "Inbound"
      else if jsIncludes mechanismType "receiver" || jsIncludes mechanismType "csrf" ||
          (jsIncludes mechanismType "client certificate" ∧
            jvTruthy (cfgField mechanism "privateKeyAlias")) then
        .ok "Outbound"
      else if jsIncludes mechanismType "client certificate" then
        if jvTruthy (cfgField mechanism "senderAuthType") then .ok "Inbound"
        else if jvTruthy (cfgField mechanism "authenticationMethod") ||
            jvTruthy (cfgField mechanism "privateKeyAlias") then .ok "Outbound"
        else .ok "Inbound"
      else .ok "Inbound"

/-- Embeds `processSecurityConfiguration`: `'true'`/`'false'` string values (any
case) become booleans, everything else is kept. -/
def processSecurityConfiguration (configuration : Option (List (String × JVal))) :
    List (String × JVal) :=
  match configuration with
  | none => []
  | some cfg =>
    cfg.map (fun kv =>
      match kv.2 with
      | .vStr s =>
        if (jsToLower s) = "true" then (kv.1, JVal.vBool true)
        else if (jsToLower s) = "false" then (kv.1, JVal.vBool false)
        else kv
      | v => (kv.1, v))

/-- Embeds `processIndividualSecurityMechanism`: `none` models the catch branch
(the only raising step is the direction heuristic applied to a non-string,
non-nullish mechanism type). -/
def processIndividualSecurityMechanism (mechanism : RawMechanism) : Option SecMech :=
  match determineSecurityDirection mechanism with
  | .error _ => none
  | .ok direction =>
    some { mechanism_name := sanitizeString mechanism.mechanism_name (some 255),
           mechanism_type := normalizeSecurityType mechanism.mechanism_type,
           direction := direction,
           configuration := processSecurityConfiguration mechanism.configuration }

/-- Embeds `processSecurityMechanisms` on an array argument: records failing the
required-field validation are skipped, the rest are processed individually. -/
def processSecurityMechanisms (securityMechanisms : List RawMechanism) : List SecMech :=
  securityMechanisms.foldl (fun acc mechanism =>
    if validateRequiredFields mechanism ["mechanism_name", "mechanism_type"] then
      match processIndividualSecurityMechanism mechanism with
      | some processed => acc ++ [processed]
      | none => acc
    else acc) []

/-- The deduplication key `` `${mechanism.mechanism_name}_${mechanism.direction}` ``. -/
def mechKey (m : SecMech) : String :=
  m.mechanism_name ++ "_" ++ m.direction

/-- The `seen`-map loop of `deduplicateSecurityMechanisms`. -/
def dedupAux : List String → List SecMech → List SecMech
  | _, [] => []
  | seen, m :: rest =>
    if seen.contains (mechKey m) then dedupAux seen rest
    else m :: dedupAux (mechKey m :: seen) rest

/-- Embeds `deduplicateSecurityMechanisms`: keeps the first record for each key. -/
def deduplicateSecurityMechanisms (securityMechanisms : List SecMech) : List SecMech :=
  dedupAux [] securityMechanisms

/-! ## The full pipeline (`baseExtractor.js` `extractXmlFromZip` + the four extractors) -/

/-- One archive entry as the zip library exposes it. -/
structure ZipEntry where
  entryName : String
  text : String
deriving DecidableEq, Repr

/-- An archive: the entry list decoded from the buffer. -/
structure ZipArchive where
  entries : List ZipEntry
deriving DecidableEq, Repr

/-- Embeds `extractXmlFromZip`: the first entry whose name ends with `.iflw` is
read and parsed; `none` models every failure return. The XML parser
(external `xml2js` library) is passed in as a pure function. -/
def extractXmlFromZip (parseXml : String → Option ParsedXml) (zip : ZipArchive) :
    Option ParsedXml :=
  match zip.entries.find? (fun e => jsEndsWith e.entryName ".iflw") with
  | none => none
  | some entry => parseXml entry.text

/-- The four canonical outputs of one pipeline invocation. -/
structure PipelineOutputs where
  adapters : List AdapterRec
  security : List SecMech
  errorHandling : ErrorHandlingCfg
  persistence : PersistenceCfg
deriving DecidableEq, Repr

/-- The fan-out of the four extractors over one parsed document. -/
def pipelineOutputs (parsedXml : ParsedXml) (flowId : String) : PipelineOutputs :=
  { adapters := extractAdapters parsedXml,
    security := extractSecurity parsedXml flowId,
    errorHandling := extractErrorHandling parsedXml,
    persistence := extractPersistence parsedXml }

/-- One full pipeline run from archive bytes (entry list) to canonical
outputs. -/
def runPipeline (parseXml : String → Option ParsedXml) (zip : ZipArchive) (flowId : String) :
    Option PipelineOutputs :=
  (extractXmlFromZip parseXml zip).map (fun px => pipelineOutputs px flowId)

/-! ## Shared concrete inputs -/

/-- A property node with both key and value text. -/
def mkProp (k v : String) : IflProperty :=
  { key := some k, val := some v }

/-- A one-collaboration document. -/
def mkDoc (flows : List MessageFlow) (collabProps : Option (List IflProperty)) : ParsedXml :=
  { definitions := some
      { collaboration := some { messageFlows := flows, ext := collabProps },
        processes := [] } }

/-! ## C5 — normalization range -/

/-- Helper: a successful association-list read returns a value of one of the
entries. -/
theorem objGet_mem {α : Type} {obj : List (String × α)} {k : String} {v : α}
    (h : objGet obj k = some v) : ∃ kv ∈ obj, kv.2 = v := by
  unfold objGet at h
  rcases Option.map_eq_some'.mp h with ⟨kv, hfind, hv⟩
  exact ⟨kv, List.mem_of_find?_eq_some hfind, hv⟩

/-- Range of the table stage: a canonical mapping value or the input
itself. -/
theorem normalizeSanitized_range (s : String) :
    (∃ kv ∈ typeMapping, normalizeSanitized s = kv.2) ∨ normalizeSanitized s = s := by
  unfold normalizeSanitized
  cases hexact : objGet typeMapping s with
  | some m =>
    rcases objGet_mem hexact with ⟨kv, hmem, hv⟩
    exact Or.inl ⟨kv, hmem, hv.symm⟩
  | none =>
    cases hpart : typeMapping.find? (fun kv =>
        jsIncludes (jsToLower s) (jsToLower kv.1) ||
          jsIncludes (jsToLower kv.1) (jsToLower s)) with
    | some kv =>
      exact Or.inl ⟨kv, List.mem_of_find?_eq_some hpart, rfl⟩
    | none =>
      exact Or.inr rfl

/-- C5 (amended): every output of `normalizeSecurityType` is `'Unknown'`,
a canonical value of the mapping table, or the sanitized input string
itself — the last disjunct is the free-form fall-through the claim
excludes. -/
theorem c5_normalize_type_range (v : JVal) :
    normalizeSecurityType v = "Unknown" ∨
      (∃ kv ∈ typeMapping, normalizeSecurityType v = kv.2) ∨
      normalizeSecurityType v = sanitizeString v (some 100) := by
  unfold normalizeSecurityType
  by_cases h : jvTruthy v = false
  · rw [if_pos h]
    exact Or.inl rfl
  · rw [if_neg h]
    rcases normalizeSanitized_range (sanitizeString v (some 100)) with hm | hs
    · exact Or.inr (Or.inl hm)
    · exact Or.inr (Or.inr hs)

/-- C5 counterexample: the free-form input `'Encryption'` passes through
unmapped — the output is neither `'Unknown'` nor any member of the closed
set the claim states. -/
theorem c5_counterexample :
    normalizeSecurityType (JVal.vStr "Encryption") = "Encryption" ∧
      ("Encryption" ∈ ["OAuth", "Basic Authentication", "Client Certificate", "SAML", "JWT",
        "CSRF Protection", "XSRF Protection", "CORS", "Role-Based Authorization",
        "Exception Handling", "Security Logging", "Debug Security", "Unknown"]) = False := by
  constructor
  · rfl
  · simp

/-! ## C6 — deduplication -/

/-- The filter characterization of the `seen`-map loop. -/
theorem dedupAux_filter (k : String) (l : List SecMech) :
    ∀ seen : List String,
      (dedupAux seen l).filter (fun m => mechKey m = k)
        = if seen.contains k then [] else (l.filter (fun m => mechKey m = k)).take 1 := by
  induction l with
  | nil =>
    intro seen
    cases h : seen.contains k <;> simp [dedupAux, h]
  | cons m rest ih =>
    intro seen
    by_cases hm : seen.contains (mechKey m) = true
    · rw [dedupAux, if_pos hm, ih seen]
      by_cases hk : mechKey m = k
      · rw [← hk, hm]
        simp
      · have : seen.contains k = seen.contains k := rfl
        cases hsk : seen.contains k <;>
          simp [hsk, List.filter_cons, hk]
    · rw [dedupAux, if_neg hm]
      by_cases hk : mechKey m = k
      · subst hk
        have hfalse : seen.contains (mechKey m) = false := by
          cases h : seen.contains (mechKey m)
          · rfl
          · exact absurd h hm
        rw [List.filter_cons_of_pos (by simp), ih (mechKey m :: seen)]
        have hcontains : (mechKey m :: seen).contains (mechKey m) = true := by
          simp [List.contains_cons]
        rw [hcontains, hfalse]
        simp [List.filter_cons]
      · have hfalse : seen.contains (mechKey m) = false := by
          cases h : seen.contains (mechKey m)
          · rfl
          · exact absurd h hm
        rw [List.filter_cons_of_neg (by simp [hk]), ih (mechKey m :: seen)]
        have hcontains : (mechKey m :: seen).contains k = seen.contains k := by
          simp [List.contains_cons]
          intro hEq
          exact absurd hEq.symm hk
        rw [hcontains]
        cases hsk : seen.contains k <;> simp [List.filter_cons, hk]

/-- C6 (amended): the deduplication step keeps, for every value of the
concatenated key `name_direction`, exactly the first input record with
that key — in particular no two output records share both name and
direction, but two records whose distinct (name, direction) pairs
concatenate to the same key are conflated. -/
theorem c6_dedup_first_per_key (l : List SecMech) (k : String) :
    (deduplicateSecurityMechanisms l).filter (fun m => mechKey m = k)
      = (l.filter (fun m => mechKey m = k)).take 1 := by
  rw [deduplicateSecurityMechanisms, dedupAux_filter k l []]
  simp

/-- The two-record list whose distinct (name, direction) pairs collide on
the concatenated deduplication key. -/
def c6CollidingInput : List SecMech :=
  [{ mechanism_name := "a_b", mechanism_type := "Basic Authentication",
     direction := "c", configuration := [] },
   { mechanism_name := "a", mechanism_type := "Basic Authentication",
     direction := "b_c", configuration := [] }]

/-- C6 counterexample: the input holds two records with distinct
(name, direction) pairs, yet the output keeps only the first — the second
pair has no output record at all, refuting "exactly one record per
distinct (mechanism_name, direction) pair". -/
theorem c6_counterexample :
    ((c6CollidingInput.map (fun m => (m.mechanism_name, m.direction))).Nodup ∧
      c6CollidingInput.length = 2) ∧
      deduplicateSecurityMechanisms c6CollidingInput = c6CollidingInput.take 1 := by
  refine ⟨⟨?_, rfl⟩, rfl⟩
  decide

/-! ## C9 — pipeline determinism -/

/-- C9: the pipeline is a pure function of the archive entries, the
artifact identifier and the (deterministic) XML parser — two runs on equal
inputs produce equal canonical outputs, element order included. -/
theorem c9_pipeline_deterministic (parseXml : String → Option ParsedXml)
    (zip1 zip2 : ZipArchive) (flowId1 flowId2 : String)
    (hz : zip1 = zip2) (hf : flowId1 = flowId2) :
    runPipeline parseXml zip1 flowId1 = runPipeline parseXml zip2 flowId2 := by
  rw [hz, hf]

/-- A concrete archive for the determinism witness. -/
def c9Archive : ZipArchive :=
  { entries := [{ entryName := "src/main/resources/scenarioflows/integrationflow/flow.iflw",
                  text := "<bpmn2/>" }] }

/-- Witness for C9 at a concrete archive and parser. -/
theorem c9_pipeline_deterministic_witness :
    runPipeline (fun _ => some (mkDoc [] none)) c9Archive "flow1"
      = runPipeline (fun _ => some (mkDoc [] none)) c9Archive "flow1" :=
  c9_pipeline_deterministic (fun _ => some (mkDoc [] none)) c9Archive c9Archive
    "flow1" "flow1" rfl rfl

/-! ## C10 — truthy non-string name passes validation, sanitizes to empty -/

/-- A raw record whose `mechanism_name` is the truthy number `42`. -/
def c10Raw : RawMechanism :=
  { mechanism_name := JVal.vNum 42, mechanism_type := JVal.vStr "OAuth",
    direction := JVal.vUndef, configuration := none }

/-- C10: required-field validation accepts the record (its name is truthy),
and the processed output carries the empty-string `mechanism_name` produced
by the non-string sanitization. -/
theorem c10_truthy_nonstring_name :
    validateRequiredFields c10Raw ["mechanism_name", "mechanism_type"] = true ∧
      processSecurityMechanisms [c10Raw] =
        [{ mechanism_name := "", mechanism_type := "OAuth", direction := "Inbound",
           configuration := [] }] :=
  ⟨rfl, rfl⟩

/-! ## C3 — collaboration error-handling signals are lost to a TypeError -/

/-- Every raising branch of the collaboration pass raises the same
`TypeError`. -/
theorem collabErrorHandlingStep_error {acc : CollabEH} {p : IflProperty} {e : String}
    (h : collabErrorHandlingStep acc p = .error e) :
    e = "TypeError: Cannot set properties of undefined" := by
  unfold collabErrorHandlingStep at h
  cases hk : p.key with
  | none => rw [hk] at h; exact absurd h (by simp)
  | some key =>
    rw [hk] at h
    by_cases h1 : key = ""
    · simp [h1] at h
    · simp only [h1, ne_eq, not_false_iff, if_true] at h
      split at h <;> try (cases h; rfl)
      split at h <;> try (cases h; rfl)
      split at h <;> cases h
      rfl

/-- A collaboration-property list containing a `returnExceptionToSender`
property makes the fold raise. -/
theorem collabEH_fold_error (props : List IflProperty) :
    ∀ acc : CollabEH,
      (∃ p ∈ props, p.key = some "returnExceptionToSender") →
      props.foldlM collabErrorHandlingStep acc
        = Except.error "TypeError: Cannot set properties of undefined" := by
  induction props with
  | nil =>
    intro acc h
    rcases h with ⟨p, hp, _⟩
    exact absurd hp (List.not_mem_nil p)
  | cons q rest ih =>
    intro acc h
    rw [List.foldlM_cons]
    cases hq : collabErrorHandlingStep acc q with
    | error e =>
      have he := collabErrorHandlingStep_error hq
      subst he
      rfl
    | ok acc2 =>
      rcases h with ⟨p, hp, hkey⟩
      rcases List.mem_cons.mp hp with hpq | hprest
      · subst hpq
        simp [collabErrorHandlingStep, hkey] at hq
      · exact ih acc2 ⟨p, hprest, hkey⟩

/-- C3 (code bug): for every document whose collaboration properties
include `returnExceptionToSender`, the extractor's collaboration pass
raises a `TypeError` (it writes into the never-initialized
`error_handling_details` member), the outer catch swallows it, and the
whole extraction returns the default configuration — `reporting_enabled`
stays `false`, contradicting the claim. -/
theorem c3_return_exception_lost (px : ParsedXml)
    (h : ∃ p ∈ getCollaborationProperties px, p.key = some "returnExceptionToSender") :
    extractErrorHandling px = getDefaultErrorHandling ∧
      (extractErrorHandling px).reporting_enabled = false := by
  have hmain : extractErrorHandling px = getDefaultErrorHandling := by
    unfold extractErrorHandling
    cases hd : px.definitions with
    | none => rfl
    | some defs =>
      have : extractCollaborationErrorHandling px
          = Except.error "TypeError: Cannot set properties of undefined" := by
        unfold extractCollaborationErrorHandling
        exact collabEH_fold_error (getCollaborationProperties px) {} h
      rw [this]
  exact ⟨hmain, by rw [hmain]; rfl⟩

/-- The failing document: a collaboration carrying
`returnExceptionToSender = 'true'` and nothing else. -/
def c3Doc : ParsedXml := mkDoc [] (some [mkProp "returnExceptionToSender" "true"])

/-- Witness for C3 at the failing input: the premise of the claim holds
(the property is present with value `'true'`) yet the extractor returns
the all-false default. -/
theorem c3_return_exception_lost_witness :
    (∃ p ∈ getCollaborationProperties c3Doc, p.key = some "returnExceptionToSender") ∧
      extractErrorHandling c3Doc = getDefaultErrorHandling ∧
      (extractErrorHandling c3Doc).reporting_enabled = false :=
  ⟨⟨mkProp "returnExceptionToSender" "true", by decide, rfl⟩,
    c3_return_exception_lost c3Doc
      ⟨mkProp "returnExceptionToSender" "true", by decide, rfl⟩⟩

/-! ## C4 — zero message flows -/

/-- C4 (amended): with zero message-flow fragments the adapter extractor
returns the empty list and the security extractor returns exactly the
collaboration-level mechanisms (which need not be empty); neither raises. -/
theorem c4_zero_flows (px : ParsedXml) (flowId : String)
    (h : getMessageFlows px = []) :
    extractAdapters px = [] ∧
      extractSecurity px flowId = extractCollaborationSecurity px flowId := by
  cases hd : px.definitions with
  | none =>
    refine ⟨?_, ?_⟩
    · unfold extractAdapters
      rw [hd]
    · have h1 : extractSecurity px flowId = [] := by
        unfold extractSecurity
        rw [hd]
      have h2 : extractCollaborationSecurity px flowId = [] := by
        unfold extractCollaborationSecurity getCollaborationProperties
        rw [hd]
        rfl
      rw [h1, h2]
  | some defs =>
    refine ⟨?_, ?_⟩
    · unfold extractAdapters
      rw [hd, h]
      rfl
    · unfold extractSecurity
      rw [hd]
      unfold extractMessageFlowSecurity
      rw [h]
      rfl

/-- The zero-flow document with a collaboration `log` property. -/
def c4Doc : ParsedXml := mkDoc [] (some [mkProp "log" "info"])

/-- Witness for C4 at a concrete zero-flow document. -/
theorem c4_zero_flows_witness :
    getMessageFlows c4Doc = [] ∧
      extractAdapters c4Doc = [] ∧
      extractSecurity c4Doc "flow1" = extractCollaborationSecurity c4Doc "flow1" :=
  ⟨rfl, (c4_zero_flows c4Doc "flow1" rfl).1, (c4_zero_flows c4Doc "flow1" rfl).2⟩

/-- C4 counterexample: a document with zero message-flow fragments whose
collaboration carries a `log` property — adapter extraction is empty, but
security extraction returns a Security Logging record, not the empty list
the claim states. -/
theorem c4_counterexample :
    getMessageFlows c4Doc = [] ∧ extractAdapters c4Doc = [] ∧
      extractSecurity c4Doc "flow1" ≠ [] := by
  refine ⟨rfl, rfl, ?_⟩
  decide

/-! ## C8 — fragments without adapter evidence are skipped -/

/-- The claim's skip condition: `ComponentType` and `direction` are both
absent (no extension block, or no such property / empty value) or equal to
`'Unknown'`. -/
def adapterEvidenceMissing (flow : MessageFlow) : Bool :=
  match flow.ext with
  | none => true
  | some properties =>
    (getPropertyValue properties "ComponentType" = "" ∨
      getPropertyValue properties "ComponentType" = "Unknown") ∧
    (getPropertyValue properties "direction" = "" ∨
      getPropertyValue properties "direction" = "Unknown")

/-- A fragment without adapter evidence yields no record. -/
theorem processMessageFlow_skip (flow : MessageFlow) (index : Nat)
    (h : adapterEvidenceMissing flow = true) :
    processMessageFlow flow index = none := by
  unfold processMessageFlow
  unfold adapterEvidenceMissing at h
  cases hext : flow.ext with
  | none => rfl
  | some properties =>
    rw [hext] at h
    simp only [decide_eq_true_eq] at h
    obtain ⟨hct, hdir⟩ := h
    have h1 : jsOrElse (getPropertyValue properties "ComponentType") "Unknown" = "Unknown" := by
      rcases hct with hc | hc <;> rw [hc] <;> rfl
    have h2 : jsOrElse (getPropertyValue properties "direction") "Unknown" = "Unknown" := by
      rcases hdir with hc | hc <;> rw [hc] <;> rfl
    simp only [h1, h2, and_self, if_pos]

/-- A flow list of evidence-free fragments yields no records at any start
index. -/
theorem extractAdaptersAux_skip (flows : List MessageFlow) :
    ∀ i : Nat, (∀ flow ∈ flows, adapterEvidenceMissing flow = true) →
      extractAdaptersAux i flows = [] := by
  induction flows with
  | nil => intro i _; rfl
  | cons flow rest ih =>
    intro i h
    rw [extractAdaptersAux,
      processMessageFlow_skip flow i (h flow (List.mem_cons_self flow rest))]
    exact ih (i + 1) (fun f hf => h f (List.mem_cons_of_mem flow hf))

/-- C8: a message-flow fragment whose `ComponentType` and `direction` are
both absent or `'Unknown'` produces no adapter record, and a document all
of whose fragments are such yields the empty adapters list. -/
theorem c8_unknown_fragments_skipped :
    (∀ (flow : MessageFlow) (index : Nat), adapterEvidenceMissing flow = true →
      processMessageFlow flow index = none) ∧
    (∀ px : ParsedXml, (∀ flow ∈ getMessageFlows px, adapterEvidenceMissing flow = true) →
      extractAdapters px = []) := by
  refine ⟨processMessageFlow_skip, fun px h => ?_⟩
  unfold extractAdapters
  cases hd : px.definitions with
  | none => rfl
  | some defs =>
    exact extractAdaptersAux_skip (getMessageFlows px) 0 h

/-- A fragment carrying explicit `'Unknown'` values for both properties. -/
def c8FlowUnknown : MessageFlow :=
  { id := some "MessageFlow_1", name := none,
    ext := some [mkProp "ComponentType" "Unknown", mkProp "direction" "Unknown"] }

/-- A fragment with no extension block at all. -/
def c8FlowBare : MessageFlow :=
  { id := some "MessageFlow_2", name := none, ext := none }

/-- The document containing only evidence-free fragments. -/
def c8Doc : ParsedXml := mkDoc [c8FlowUnknown, c8FlowBare] none

/-- Witness for C8 at the Scenario-E document. -/
theorem c8_unknown_fragments_skipped_witness :
    processMessageFlow c8FlowUnknown 0 = none ∧ extractAdapters c8Doc = [] :=
  ⟨c8_unknown_fragments_skipped.1 c8FlowUnknown 0 (by decide),
    c8_unknown_fragments_skipped.2 c8Doc (by decide)⟩

/-! ## C1 — direction inversion -/

/-- A truthy, non-`'None'` auth method yields exactly one primary record,
named `adapterName_authMethod`, with the inverted security direction. -/
theorem processAuthenticationMechanism_eq (am an dir ct : String)
    (props : List IflProperty) (h1 : am ≠ "") (h2 : am ≠ "None") :
    ∃ mt cfg, processAuthenticationMechanism am an dir ct props
      = [{ mechanism_name := an ++ "_" ++ am, mechanism_type := mt,
           direction := if dir = "Sender" then "Inbound" else "Outbound",
           configuration := cfg }] := by
  unfold processAuthenticationMechanism
  rw [if_pos ⟨h1, h2⟩]
  exact ⟨_, _, rfl⟩

/-- A flow's records land in the indexed traversal of the flow list. -/
theorem mem_messageFlowSecurityAux {flow : MessageFlow} :
    ∀ (flows : List MessageFlow) (i : Nat), flow ∈ flows →
      ∃ j, ∀ m ∈ messageFlowSecurityOne j flow, m ∈ messageFlowSecurityAux i flows := by
  intro flows
  induction flows with
  | nil => intro i h; exact absurd h (List.not_mem_nil _)
  | cons f rest ih =>
    intro i h
    rcases List.mem_cons.mp h with rfl | hrest
    · refine ⟨i, fun m hm => ?_⟩
      rw [messageFlowSecurityAux]
      exact List.mem_append_left _ hm
    · rcases ih (i + 1) hrest with ⟨j, hj⟩
      refine ⟨j, fun m hm => ?_⟩
      rw [messageFlowSecurityAux]
      exact List.mem_append_right _ (hj m hm)

/-- The per-flow records of a Sender fragment with a usable
`senderAuthType`. -/
theorem messageFlowSecurityOne_sender (j : Nat) (flow : MessageFlow)
    (props : List IflProperty) (hext : flow.ext = some props)
    (hdir : getPropertyValue props "direction" = "Sender")
    (h1 : getPropertyValue props "senderAuthType" ≠ "")
    (h2 : getPropertyValue props "senderAuthType" ≠ "None") :
    ∃ m ∈ messageFlowSecurityOne j flow,
      (∃ n, m.mechanism_name = n ++ "_" ++ getPropertyValue props "senderAuthType") ∧
        m.direction = "Inbound" := by
  simp only [messageFlowSecurityOne, hext]
  rw [hdir]
  rcases processAuthenticationMechanism_eq (getPropertyValue props "senderAuthType")
      (jsOrElse (getPropertyValue props "Name")
        (jsOptOrElse flow.id ("Adapter_" ++ toString j)))
      "Sender" (jsOrElse (getPropertyValue props "ComponentType") "Unknown") props h1 h2
    with ⟨mt, cfg, heq⟩
  refine ⟨SecMech.mk
      ((jsOrElse (getPropertyValue props "Name")
        (jsOptOrElse flow.id ("Adapter_" ++ toString j))) ++ "_" ++
        getPropertyValue props "senderAuthType")
      mt "Inbound" cfg, ?_, ⟨_, rfl⟩, rfl⟩
  show _ ∈ processAuthenticationMechanism (getPropertyValue props "senderAuthType")
      (jsOrElse (getPropertyValue props "Name")
        (jsOptOrElse flow.id ("Adapter_" ++ toString j)))
      "Sender" (jsOrElse (getPropertyValue props "ComponentType") "Unknown") props
      ++ processAdditionalSecurity props
      (jsOrElse (getPropertyValue props "Name")
        (jsOptOrElse flow.id ("Adapter_" ++ toString j)))
      "Sender" (jsOrElse (getPropertyValue props "ComponentType") "Unknown")
  rw [heq]
  exact List.mem_append_left _ (List.mem_singleton.mpr rfl)

/-- The per-flow records of a Receiver fragment with a usable
`authenticationMethod`. -/
theorem messageFlowSecurityOne_receiver (j : Nat) (flow : MessageFlow)
    (props : List IflProperty) (hext : flow.ext = some props)
    (hdir : getPropertyValue props "direction" = "Receiver")
    (h1 : getPropertyValue props "authenticationMethod" ≠ "")
    (h2 : getPropertyValue props "authenticationMethod" ≠ "None") :
    ∃ m ∈ messageFlowSecurityOne j flow,
      (∃ n, m.mechanism_name = n ++ "_" ++ getPropertyValue props "authenticationMethod") ∧
        m.direction = "Outbound" := by
  simp only [messageFlowSecurityOne, hext]
  rw [hdir]
  rcases processAuthenticationMechanism_eq (getPropertyValue props "authenticationMethod")
      (jsOrElse (getPropertyValue props "Name")
        (jsOptOrElse flow.id ("Adapter_" ++ toString j)))
      "Receiver" (jsOrElse (getPropertyValue props "ComponentType") "Unknown") props h1 h2
    with ⟨mt, cfg, heq⟩
  refine ⟨SecMech.mk
      ((jsOrElse (getPropertyValue props "Name")
        (jsOptOrElse flow.id ("Adapter_" ++ toString j))) ++ "_" ++
        getPropertyValue props "authenticationMethod")
      mt "Outbound" cfg, ?_, ⟨_, rfl⟩, rfl⟩
  show _ ∈ processAuthenticationMechanism (getPropertyValue props "authenticationMethod")
      (jsOrElse (getPropertyValue props "Name")
        (jsOptOrElse flow.id ("Adapter_" ++ toString j)))
      "Receiver" (jsOrElse (getPropertyValue props "ComponentType") "Unknown") props
      ++ processAdditionalSecurity props
      (jsOrElse (getPropertyValue props "Name")
        (jsOptOrElse flow.id ("Adapter_" ++ toString j)))
      "Receiver" (jsOrElse (getPropertyValue props "ComponentType") "Unknown")
  rw [heq]
  exact List.mem_append_left _ (List.mem_singleton.mpr rfl)

/-- Records of any message flow land in the full security extraction. -/
theorem messageFlowSecurity_sub_extractSecurity {px : ParsedXml} {flowId : String}
    {m : SecMech} (hmem : m ∈ extractMessageFlowSecurity px)
    (hd : ∃ d, px.definitions = some d) :
    m ∈ extractSecurity px flowId := by
  rcases hd with ⟨d, hd⟩
  unfold extractSecurity
  rw [hd]
  exact List.mem_append_left _ hmem

/-- C1 (amended): a Sender fragment whose `senderAuthType` is non-empty
and different from `'None'` yields a security record for that method with
direction `Inbound`; a Receiver fragment whose `authenticationMethod` is
non-empty and different from `'None'` yields one with direction
`Outbound`. -/
theorem c1_direction_inversion (px : ParsedXml) (flowId : String) (flow : MessageFlow)
    (props : List IflProperty) (hmem : flow ∈ getMessageFlows px)
    (hext : flow.ext = some props) :
    (getPropertyValue props "direction" = "Sender" →
      getPropertyValue props "senderAuthType" ≠ "" →
      getPropertyValue props "senderAuthType" ≠ "None" →
      ∃ m ∈ extractSecurity px flowId,
        (∃ n, m.mechanism_name = n ++ "_" ++ getPropertyValue props "senderAuthType") ∧
          m.direction = "Inbound") ∧
    (getPropertyValue props "direction" = "Receiver" →
      getPropertyValue props "authenticationMethod" ≠ "" →
      getPropertyValue props "authenticationMethod" ≠ "None" →
      ∃ m ∈ extractSecurity px flowId,
        (∃ n, m.mechanism_name = n ++ "_" ++ getPropertyValue props "authenticationMethod") ∧
          m.direction = "Outbound") := by
  have hd : ∃ d, px.definitions = some d := by
    cases hdd : px.definitions with
    | none =>
      unfold getMessageFlows at hmem
      rw [hdd] at hmem
      exact absurd hmem (List.not_mem_nil _)
    | some d => exact ⟨d, rfl⟩
  rcases mem_messageFlowSecurityAux (getMessageFlows px) 0 hmem with ⟨j, hj⟩
  constructor
  · intro hdir h1 h2
    rcases messageFlowSecurityOne_sender j flow props hext hdir h1 h2 with ⟨m, hm, hname, hdirm⟩
    exact ⟨m, messageFlowSecurity_sub_extractSecurity (hj m hm) hd, hname, hdirm⟩
  · intro hdir h1 h2
    rcases messageFlowSecurityOne_receiver j flow props hext hdir h1 h2 with ⟨m, hm, hname, hdirm⟩
    exact ⟨m, messageFlowSecurity_sub_extractSecurity (hj m hm) hd, hname, hdirm⟩

/-- The properties of the `'None'` Sender fragment. -/
def c1NoneProps : List IflProperty :=
  [mkProp "Name" "HTTPS_IN", mkProp "direction" "Sender", mkProp "senderAuthType" "None"]

/-- The `'None'` Sender fragment. -/
def c1NoneFlow : MessageFlow :=
  { id := some "MessageFlow_1", name := none, ext := some c1NoneProps }

/-- The document containing only the `'None'` Sender fragment. -/
def c1NoneDoc : ParsedXml := mkDoc [c1NoneFlow] none

/-- C1 counterexample: the fragment's `senderAuthType` is `'None'` — a
non-empty value — yet security extraction yields no record at all, so the
claim as stated (any non-empty `senderAuthType`) fails. -/
theorem c1_counterexample :
    (c1NoneFlow ∈ getMessageFlows c1NoneDoc ∧
      c1NoneFlow.ext = some c1NoneProps ∧
      getPropertyValue c1NoneProps "direction" = "Sender" ∧
      getPropertyValue c1NoneProps "senderAuthType" = "None" ∧
      getPropertyValue c1NoneProps "senderAuthType" ≠ "") ∧
      extractSecurity c1NoneDoc "flow1" = [] := by
  exact ⟨⟨by decide, rfl, rfl, rfl, by decide⟩, rfl⟩

/-- The properties of the Scenario-A Sender fragment. -/
def c1OkProps : List IflProperty :=
  [mkProp "Name" "HTTPS_IN", mkProp "direction" "Sender",
   mkProp "senderAuthType" "BasicAuthentication"]

/-- The Scenario-A Sender fragment. -/
def c1OkFlow : MessageFlow :=
  { id := some "MessageFlow_1", name := none, ext := some c1OkProps }

/-- The document containing the Scenario-A fragment. -/
def c1OkDoc : ParsedXml := mkDoc [c1OkFlow] none

/-- Witness for C1 at the Scenario-A document. -/
theorem c1_direction_inversion_witness :
    ∃ m ∈ extractSecurity c1OkDoc "flow1",
      (∃ n, m.mechanism_name = n ++ "_" ++ "BasicAuthentication") ∧
        m.direction = "Inbound" :=
  (c1_direction_inversion c1OkDoc "flow1" c1OkFlow c1OkProps (by decide) rfl).1
    rfl (by decide) (by decide)

/-! ## C2 — no Client-Certificate tie-break -/

/-- The primary record of a Client-Certificate auth method. -/
theorem processAuthenticationMechanism_clientCert_eq (am an dir ct : String)
    (props : List IflProperty) (h1 : am ≠ "") (h2 : am ≠ "None")
    (hcc : jsIncludes am "ClientCertificate" = true) :
    ∃ cfg, processAuthenticationMechanism am an dir ct props
      = [SecMech.mk (an ++ "_" ++ am) "Client Certificate"
          (if dir = "Sender" then "Inbound" else "Outbound") cfg] := by
  simp only [processAuthenticationMechanism]
  rw [if_pos ⟨h1, h2⟩]
  have hb : (jsIncludes am "ClientCertificate" || jsIncludes am "Client Certificate") = true := by
    rw [hcc]
    rfl
  rw [hb]
  exact ⟨_, rfl⟩

/-- The alias-derived Client-Certificate record is pushed for every
Receiver with a truthy private-key alias — unconditionally on the primary
authentication method. -/
theorem processAdditionalSecurity_clientCert (props : List IflProperty) (an ct : String)
    (halias : jsOrElse (getPropertyValue props "privateKeyAlias")
      (getPropertyValue props "odataCertAuthPrivateKeyAlias") ≠ "") :
    ∃ cfg, SecMech.mk (an ++ "_ClientCert") "Client Certificate" "Outbound" cfg
      ∈ processAdditionalSecurity props an "Receiver" ct := by
  refine ⟨[("privateKeyAlias", JVal.vStr (jsOrElse (getPropertyValue props "privateKeyAlias")
      (getPropertyValue props "odataCertAuthPrivateKeyAlias"))),
    ("certificateAuthentication", JVal.vBool true), ("componentType", JVal.vStr ct)], ?_⟩
  simp only [processAdditionalSecurity]
  refine List.mem_append_left _ (List.mem_append_left _ (List.mem_append_right _ ?_))
  rw [if_pos ⟨halias, trivial⟩]
  exact List.mem_singleton.mpr rfl

/-- Per-flow: a Receiver fragment with a Client-Certificate auth method
and a private-key alias contributes both Client-Certificate records. -/
theorem messageFlowSecurityOne_receiver_cc (j : Nat) (flow : MessageFlow)
    (props : List IflProperty) (hext : flow.ext = some props)
    (hdir : getPropertyValue props "direction" = "Receiver")
    (hcc : jsIncludes (getPropertyValue props "authenticationMethod") "ClientCertificate" = true)
    (halias : jsOrElse (getPropertyValue props "privateKeyAlias")
      (getPropertyValue props "odataCertAuthPrivateKeyAlias") ≠ "") :
    ∃ n,
      (∃ cfg, SecMech.mk (n ++ "_" ++ getPropertyValue props "authenticationMethod")
          "Client Certificate" "Outbound" cfg ∈ messageFlowSecurityOne j flow) ∧
      (∃ cfg, SecMech.mk (n ++ "_ClientCert") "Client Certificate" "Outbound" cfg
          ∈ messageFlowSecurityOne j flow) := by
  have h1 : getPropertyValue props "authenticationMethod" ≠ "" := by
    intro he
    rw [he] at hcc
    exact absurd hcc (by decide)
  have h2 : getPropertyValue props "authenticationMethod" ≠ "None" := by
    intro he
    rw [he] at hcc
    exact absurd hcc (by decide)
  simp only [messageFlowSecurityOne, hext]
  rw [hdir]
  refine ⟨jsOrElse (getPropertyValue props "Name")
      (jsOptOrElse flow.id ("Adapter_" ++ toString j)), ?_, ?_⟩
  · rcases processAuthenticationMechanism_clientCert_eq
        (getPropertyValue props "authenticationMethod")
        (jsOrElse (getPropertyValue props "Name")
          (jsOptOrElse flow.id ("Adapter_" ++ toString j)))
        "Receiver" (jsOrElse (getPropertyValue props "ComponentType") "Unknown")
        props h1 h2 hcc with ⟨cfg, heq⟩
    refine ⟨cfg, ?_⟩
    show _ ∈ processAuthenticationMechanism (getPropertyValue props "authenticationMethod")
        (jsOrElse (getPropertyValue props "Name")
          (jsOptOrElse flow.id ("Adapter_" ++ toString j)))
        "Receiver" (jsOrElse (getPropertyValue props "ComponentType") "Unknown") props
        ++ processAdditionalSecurity props
        (jsOrElse (getPropertyValue props "Name")
          (jsOptOrElse flow.id ("Adapter_" ++ toString j)))
        "Receiver" (jsOrElse (getPropertyValue props "ComponentType") "Unknown")
    rw [heq]
    exact List.mem_append_left _ (List.mem_singleton.mpr rfl)
  · rcases processAdditionalSecurity_clientCert props
        (jsOrElse (getPropertyValue props "Name")
          (jsOptOrElse flow.id ("Adapter_" ++ toString j)))
        (jsOrElse (getPropertyValue props "ComponentType") "Unknown") halias with ⟨cfg, hm⟩
    refine ⟨cfg, ?_⟩
    show _ ∈ processAuthenticationMechanism (getPropertyValue props "authenticationMethod")
        (jsOrElse (getPropertyValue props "Name")
          (jsOptOrElse flow.id ("Adapter_" ++ toString j)))
        "Receiver" (jsOrElse (getPropertyValue props "ComponentType") "Unknown") props
        ++ processAdditionalSecurity props
        (jsOrElse (getPropertyValue props "Name")
          (jsOptOrElse flow.id ("Adapter_" ++ toString j)))
        "Receiver" (jsOrElse (getPropertyValue props "ComponentType") "Unknown")
    exact List.mem_append_right _ hm

/-- C2 (amended): for a Receiver fragment whose primary authentication
method is a Client-Certificate variant and which also carries a
private-key alias, the security extraction outputs BOTH Client-Certificate
records — the primary `name_authMethod` record and the alias-derived
`name_ClientCert` record; the alias-derived record is not suppressed. -/
theorem c2_alias_client_cert_not_suppressed (px : ParsedXml) (flowId : String)
    (flow : MessageFlow) (props : List IflProperty)
    (hmem : flow ∈ getMessageFlows px) (hext : flow.ext = some props)
    (hdir : getPropertyValue props "direction" = "Receiver")
    (hcc : jsIncludes (getPropertyValue props "authenticationMethod") "ClientCertificate" = true)
    (halias : jsOrElse (getPropertyValue props "privateKeyAlias")
      (getPropertyValue props "odataCertAuthPrivateKeyAlias") ≠ "") :
    ∃ n,
      (∃ cfg, SecMech.mk (n ++ "_" ++ getPropertyValue props "authenticationMethod")
          "Client Certificate" "Outbound" cfg ∈ extractSecurity px flowId) ∧
      (∃ cfg, SecMech.mk (n ++ "_ClientCert") "Client Certificate" "Outbound" cfg
          ∈ extractSecurity px flowId) := by
  have hd : ∃ d, px.definitions = some d := by
    cases hdd : px.definitions with
    | none =>
      unfold getMessageFlows at hmem
      rw [hdd] at hmem
      exact absurd hmem (List.not_mem_nil _)
    | some d => exact ⟨d, rfl⟩
  rcases mem_messageFlowSecurityAux (getMessageFlows px) 0 hmem with ⟨j, hj⟩
  rcases messageFlowSecurityOne_receiver_cc j flow props hext hdir hcc halias
    with ⟨n, ⟨cfg1, hm1⟩, ⟨cfg2, hm2⟩⟩
  exact ⟨n,
    ⟨cfg1, messageFlowSecurity_sub_extractSecurity (hj _ hm1) hd⟩,
    ⟨cfg2, messageFlowSecurity_sub_extractSecurity (hj _ hm2) hd⟩⟩

/-- The properties of the Receiver fragment with both a Client-Certificate
auth method and a private-key alias. -/
def c2Props : List IflProperty :=
  [mkProp "Name" "ODATA_OUT", mkProp "direction" "Receiver",
   mkProp "authenticationMethod" "ClientCertificate", mkProp "privateKeyAlias" "alias1"]

/-- The Receiver fragment for C2. -/
def c2Flow : MessageFlow :=
  { id := some "MessageFlow_1", name := none, ext := some c2Props }

/-- The document for C2. -/
def c2Doc : ParsedXml := mkDoc [c2Flow] none

/-- C2 counterexample: the premise of the tie-break claim holds, yet the
output contains two Client-Certificate records for the adapter, not
exactly one — the alias-derived record is not suppressed. -/
theorem c2_counterexample :
    (getPropertyValue c2Props "direction" = "Receiver" ∧
      getPropertyValue c2Props "authenticationMethod" = "ClientCertificate" ∧
      getPropertyValue c2Props "privateKeyAlias" = "alias1") ∧
      ((extractSecurity c2Doc "flow1").filter
        (fun m => m.mechanism_type = "Client Certificate")).length = 2 := by
  exact ⟨⟨rfl, rfl, rfl⟩, rfl⟩

/-- Witness for C2 at the concrete document. -/
theorem c2_alias_client_cert_not_suppressed_witness :
    ∃ n,
      (∃ cfg, SecMech.mk (n ++ "_" ++ "ClientCertificate")
          "Client Certificate" "Outbound" cfg ∈ extractSecurity c2Doc "flow1") ∧
      (∃ cfg, SecMech.mk (n ++ "_ClientCert") "Client Certificate" "Outbound" cfg
          ∈ extractSecurity c2Doc "flow1") :=
  c2_alias_client_cert_not_suppressed c2Doc "flow1" c2Flow c2Props
    (by decide) rfl rfl (by decide) (by decide)

/-! ## C7 — JMS detection and additive merge -/

/-- Inserting a key makes it a member of the object's key set. -/
theorem mem_objKeys_objInsert_self {α : Type} (obj : List (String × α)) (k : String) (v : α) :
    k ∈ objKeys (objInsert obj k v) := by
  induction obj with
  | nil => exact List.mem_singleton.mpr rfl
  | cons kv rest ih =>
    unfold objInsert
    by_cases h : kv.1 = k
    · rw [if_pos h]
      exact List.mem_cons_self _ _
    · rw [if_neg h]
      exact List.mem_cons_of_mem _ ih

/-- Insertion never removes a key. -/
theorem mem_objKeys_objInsert {α : Type} {obj : List (String × α)} {k : String}
    (k2 : String) (v : α) (h : k ∈ objKeys obj) :
    k ∈ objKeys (objInsert obj k2 v) := by
  induction obj with
  | nil => exact absurd h (List.not_mem_nil _)
  | cons kv rest ih =>
    unfold objInsert
    rcases List.mem_cons.mp h with hk | hrest
    · by_cases he : kv.1 = k2
      · rw [if_pos he]
        rw [hk, ← he]
        exact List.mem_cons_self _ _
      · rw [if_neg he]
        rw [hk]
        exact List.mem_cons_self _ _
    · by_cases he : kv.1 = k2
      · rw [if_pos he]
        exact List.mem_cons_of_mem _ hrest
      · rw [if_neg he]
        exact List.mem_cons_of_mem _ (ih hrest)

/-- The JMS-property collecting step never removes the `queueName` key. -/
theorem jmsPropertiesStep_mono (acc : List (String × String)) (p : IflProperty)
    (h : "queueName" ∈ objKeys acc) :
    "queueName" ∈ objKeys (jmsPropertiesStep acc p) := by
  unfold jmsPropertiesStep
  cases p.key with
  | none => exact h
  | some key =>
    by_cases h1 : key = ""
    · simp only [h1, ne_eq, not_true_eq_false, if_false]
      exact h
    · simp only [h1, ne_eq, not_false_iff, if_true]
      split
      · exact mem_objKeys_objInsert _ _ h
      · exact h

/-- A property with key `queueName` forces the key into the folded JMS
properties. -/
theorem jmsFold_queueName (props : List IflProperty) :
    ∀ acc : List (String × String),
      ((∃ p ∈ props, p.key = some "queueName") ∨ "queueName" ∈ objKeys acc) →
      "queueName" ∈ objKeys (props.foldl jmsPropertiesStep acc) := by
  induction props with
  | nil =>
    intro acc h
    rcases h with ⟨p, hp, _⟩ | h
    · exact absurd hp (List.not_mem_nil _)
    · exact h
  | cons q rest ih =>
    intro acc h
    rw [List.foldl_cons]
    rcases h with ⟨p, hp, hkey⟩ | hacc
    · rcases List.mem_cons.mp hp with rfl | hrest
      · apply ih
        right
        simp only [jmsPropertiesStep, hkey]
        rw [if_pos (by decide : ("queueName" : String) ≠ ""), if_pos (by decide)]
        exact mem_objKeys_objInsert_self _ _ _
      · exact ih _ (Or.inl ⟨p, hrest, hkey⟩)
    · exact ih _ (Or.inr (jmsPropertiesStep_mono acc q hacc))

/-- A `queueName` property yields a JMS configuration whose properties
carry the `queueName` key. -/
theorem extractJMSConfiguration_queueName (props : List IflProperty) (an : String)
    (h : ∃ p ∈ props, p.key = some "queueName") :
    ∃ cfg, extractJMSConfiguration props an = some cfg ∧
      "queueName" ∈ objKeys cfg.properties := by
  have hkey : "queueName" ∈ objKeys (props.foldl jmsPropertiesStep []) :=
    jmsFold_queueName props [] (Or.inl h)
  have hlen : (props.foldl jmsPropertiesStep []).length > 0 := by
    cases hl : props.foldl jmsPropertiesStep [] with
    | nil =>
      rw [hl] at hkey
      exact absurd hkey (List.not_mem_nil _)
    | cons a l => simp
  refine ⟨{ name := an, type := "JMS", properties := props.foldl jmsPropertiesStep [] }, ?_, hkey⟩
  simp only [extractJMSConfiguration]
  rw [if_pos hlen]

/-- One adapter-persistence step only ever appends to the JMS adapter
list. -/
theorem adapterPersistenceOne_jms_mono (acc : AdapterPersistence) (i : Nat)
    (flow : MessageFlow) :
    ∃ s, (adapterPersistenceOne acc i flow).jmsAdapters = acc.jmsAdapters ++ s := by
  cases hext : flow.ext with
  | none => exact ⟨[], by simp [adapterPersistenceOne, hext]⟩
  | some props =>
    simp only [adapterPersistenceOne, hext]
    by_cases hb : jsIncludes
        (jsToLower (jsOrElse (getPropertyValue props "ComponentType") "Unknown")) "jms" = true
    · rw [if_pos hb]
      cases h1 : extractJMSConfiguration props
          (jsOrElse (getPropertyValue props "Name")
            (jsOptOrElse flow.id ("Adapter_" ++ toString i))) <;>
        cases h2 : extractMessagePersistenceConfiguration props
            (jsOrElse (getPropertyValue props "Name")
              (jsOptOrElse flow.id ("Adapter_" ++ toString i)))
            (jsOrElse (getPropertyValue props "ComponentType") "Unknown") <;>
          cases h3 : extractDataStoreConfiguration props
              (jsOrElse (getPropertyValue props "Name")
                (jsOptOrElse flow.id ("Adapter_" ++ toString i)))
              (jsOrElse (getPropertyValue props "ComponentType") "Unknown") <;>
            first
              | exact ⟨_, rfl⟩
              | exact ⟨[], by simp⟩
    · rw [if_neg hb]
      cases h2 : extractMessagePersistenceConfiguration props
          (jsOrElse (getPropertyValue props "Name")
            (jsOptOrElse flow.id ("Adapter_" ++ toString i)))
          (jsOrElse (getPropertyValue props "ComponentType") "Unknown") <;>
        cases h3 : extractDataStoreConfiguration props
            (jsOrElse (getPropertyValue props "Name")
              (jsOptOrElse flow.id ("Adapter_" ++ toString i)))
            (jsOrElse (getPropertyValue props "ComponentType") "Unknown") <;>
          first
            | exact ⟨_, rfl⟩
            | exact ⟨[], by simp⟩

/-- A qualifying JMS fragment appends exactly one configuration carrying
the `queueName` key. -/
theorem adapterPersistenceOne_jms (acc : AdapterPersistence) (i : Nat) (flow : MessageFlow)
    (props : List IflProperty) (hext : flow.ext = some props)
    (hjms : jsIncludes (jsToLower (jsOrElse (getPropertyValue props "ComponentType") "Unknown"))
      "jms" = true)
    (hqn : ∃ p ∈ props, p.key = some "queueName") :
    ∃ cfg, (adapterPersistenceOne acc i flow).jmsAdapters = acc.jmsAdapters ++ [cfg] ∧
      "queueName" ∈ objKeys cfg.properties := by
  rcases extractJMSConfiguration_queueName props
      (jsOrElse (getPropertyValue props "Name")
        (jsOptOrElse flow.id ("Adapter_" ++ toString i))) hqn with ⟨cfg, hcfg, hk⟩
  refine ⟨cfg, ?_, hk⟩
  simp only [adapterPersistenceOne, hext]
  rw [if_pos hjms, hcfg]
  cases hmp : extractMessagePersistenceConfiguration props
      (jsOrElse (getPropertyValue props "Name")
        (jsOptOrElse flow.id ("Adapter_" ++ toString i)))
      (jsOrElse (getPropertyValue props "ComponentType") "Unknown") <;>
    cases hds : extractDataStoreConfiguration props
        (jsOrElse (getPropertyValue props "Name")
          (jsOptOrElse flow.id ("Adapter_" ++ toString i)))
        (jsOrElse (getPropertyValue props "ComponentType") "Unknown") <;>
      rfl

/-- The indexed adapter-persistence traversal only ever appends to the JMS
adapter list. -/
theorem adapterPersistenceAux_jms_mono (flows : List MessageFlow) :
    ∀ (i : Nat) (acc : AdapterPersistence),
      ∃ s, (adapterPersistenceAux acc i flows).jmsAdapters = acc.jmsAdapters ++ s := by
  induction flows with
  | nil => intro i acc; exact ⟨[], by simp [adapterPersistenceAux]⟩
  | cons f rest ih =>
    intro i acc
    rw [adapterPersistenceAux]
    rcases adapterPersistenceOne_jms_mono acc i f with ⟨s1, h1⟩
    rcases ih (i + 1) (adapterPersistenceOne acc i f) with ⟨s2, h2⟩
    exact ⟨s1 ++ s2, by rw [h2, h1, List.append_assoc]⟩

/-- A qualifying JMS fragment anywhere in the flow list puts a
`queueName`-carrying configuration into the traversal result. -/
theorem adapterPersistenceAux_jms_mem (flows : List MessageFlow) :
    ∀ (i : Nat) (acc : AdapterPersistence) (flow : MessageFlow) (props : List IflProperty),
      flow ∈ flows → flow.ext = some props →
      jsIncludes (jsToLower (jsOrElse (getPropertyValue props "ComponentType") "Unknown"))
        "jms" = true →
      (∃ p ∈ props, p.key = some "queueName") →
      ∃ cfg ∈ (adapterPersistenceAux acc i flows).jmsAdapters,
        "queueName" ∈ objKeys cfg.properties := by
  induction flows with
  | nil =>
    intro i acc flow props hmem _ _ _
    exact absurd hmem (List.not_mem_nil _)
  | cons f rest ih =>
    intro i acc flow props hmem hext hjms hqn
    rw [adapterPersistenceAux]
    rcases List.mem_cons.mp hmem with rfl | hrest
    · rcases adapterPersistenceOne_jms acc i flow props hext hjms hqn with ⟨cfg, hone, hk⟩
      rcases adapterPersistenceAux_jms_mono rest (i + 1) (adapterPersistenceOne acc i flow)
        with ⟨s, hs⟩
      refine ⟨cfg, ?_, hk⟩
      rw [hs, hone]
      exact List.mem_append_left _ (List.mem_append_right _ (List.mem_singleton.mpr rfl))
    · exact ih (i + 1) (adapterPersistenceOne acc i f) flow props hrest hext hjms hqn

/-- Block 2 leaves the JMS fields untouched. -/
theorem mergeMsgPersistStep_jms (p : PersistenceCfg) (d : MergeDetails) :
    (mergeMsgPersistStep p d).jms_enabled = p.jms_enabled ∧
      (mergeMsgPersistStep p d).persistence_details.jmsAdapters
        = p.persistence_details.jmsAdapters := by
  unfold mergeMsgPersistStep
  split <;> exact ⟨rfl, rfl⟩

/-- Block 3 leaves the JMS fields untouched. -/
theorem mergeDataStoreOpsStep_jms (p : PersistenceCfg) (d : MergeDetails) :
    (mergeDataStoreOpsStep p d).jms_enabled = p.jms_enabled ∧
      (mergeDataStoreOpsStep p d).persistence_details.jmsAdapters
        = p.persistence_details.jmsAdapters := by
  unfold mergeDataStoreOpsStep
  split <;> exact ⟨rfl, rfl⟩

/-- Block 4 leaves the JMS fields untouched. -/
theorem mergeDataStoreActsStep_jms (p : PersistenceCfg) (d : MergeDetails) :
    (mergeDataStoreActsStep p d).jms_enabled = p.jms_enabled ∧
      (mergeDataStoreActsStep p d).persistence_details.jmsAdapters
        = p.persistence_details.jmsAdapters := by
  unfold mergeDataStoreActsStep
  split <;> exact ⟨rfl, rfl⟩

/-- Block 5 leaves the JMS fields untouched. -/
theorem mergeVarOpsStep_jms (p : PersistenceCfg) (d : MergeDetails) :
    (mergeVarOpsStep p d).jms_enabled = p.jms_enabled ∧
      (mergeVarOpsStep p d).persistence_details.jmsAdapters
        = p.persistence_details.jmsAdapters := by
  unfold mergeVarOpsStep
  split <;> exact ⟨rfl, rfl⟩

/-- Block 6 leaves the JMS fields untouched. -/
theorem mergeExtCallsStep_jms (p : PersistenceCfg) (d : MergeDetails) :
    (mergeExtCallsStep p d).jms_enabled = p.jms_enabled ∧
      (mergeExtCallsStep p d).persistence_details.jmsAdapters
        = p.persistence_details.jmsAdapters := by
  unfold mergeExtCallsStep
  split <;> exact ⟨rfl, rfl⟩

/-- Blocks 7–9 leave the JMS fields untouched. -/
theorem mergeScalarsStep_jms (p : PersistenceCfg) (d : MergeDetails) :
    (mergeScalarsStep p d).jms_enabled = p.jms_enabled ∧
      (mergeScalarsStep p d).persistence_details.jmsAdapters
        = p.persistence_details.jmsAdapters := by
  unfold mergeScalarsStep
  cases d.directCall <;> split <;> split <;> exact ⟨rfl, rfl⟩

/-- Non-empty JMS details force `jms_enabled` and append the new adapter
records. -/
theorem merge_jms_set (p : PersistenceCfg) (d : MergeDetails) (h : d.jmsAdapters ≠ []) :
    (mergePersistenceDetails p d).jms_enabled = true ∧
      (mergePersistenceDetails p d).persistence_details.jmsAdapters
        = p.persistence_details.jmsAdapters ++ d.jmsAdapters := by
  have hlen : d.jmsAdapters.length > 0 := List.length_pos.mpr h
  have h1 : (mergeJmsStep p d).jms_enabled = true ∧
      (mergeJmsStep p d).persistence_details.jmsAdapters
        = p.persistence_details.jmsAdapters ++ d.jmsAdapters := by
    unfold mergeJmsStep
    rw [if_pos hlen]
    exact ⟨rfl, rfl⟩
  unfold mergePersistenceDetails
  constructor
  · rw [(mergeScalarsStep_jms _ _).1, (mergeExtCallsStep_jms _ _).1,
      (mergeVarOpsStep_jms _ _).1, (mergeDataStoreActsStep_jms _ _).1,
      (mergeDataStoreOpsStep_jms _ _).1, (mergeMsgPersistStep_jms _ _).1, h1.1]
  · rw [(mergeScalarsStep_jms _ _).2, (mergeExtCallsStep_jms _ _).2,
      (mergeVarOpsStep_jms _ _).2, (mergeDataStoreActsStep_jms _ _).2,
      (mergeDataStoreOpsStep_jms _ _).2, (mergeMsgPersistStep_jms _ _).2, h1.2]

/-- The additive-merge contract: booleans are only raised, record lists are
only extended. -/
def persistMono (p q : PersistenceCfg) : Prop :=
  (p.jms_enabled = true → q.jms_enabled = true) ∧
  (p.data_store_enabled = true → q.data_store_enabled = true) ∧
  (p.variables_enabled = true → q.variables_enabled = true) ∧
  (p.message_persistence_enabled = true → q.message_persistence_enabled = true) ∧
  (∃ s, q.persistence_details.jmsAdapters = p.persistence_details.jmsAdapters ++ s) ∧
  (∃ s, q.persistence_details.messagePersistence
    = p.persistence_details.messagePersistence ++ s) ∧
  (∃ s, q.persistence_details.dataStoreOperations
    = p.persistence_details.dataStoreOperations ++ s) ∧
  (∃ s, q.persistence_details.dataStoreActivities
    = p.persistence_details.dataStoreActivities ++ s) ∧
  (∃ s, q.persistence_details.variableOperations
    = p.persistence_details.variableOperations ++ s) ∧
  (∃ s, q.persistence_details.externalCalls = p.persistence_details.externalCalls ++ s)

/-- Every list extends itself. -/
theorem listSelfExt {α : Type} (l : List α) : ∃ s, l = l ++ s :=
  ⟨[], (List.append_nil l).symm⟩

/-- The additive-merge contract is reflexive. -/
theorem persistMono_refl (p : PersistenceCfg) : persistMono p p :=
  ⟨id, id, id, id, listSelfExt _, listSelfExt _, listSelfExt _, listSelfExt _,
    listSelfExt _, listSelfExt _⟩

/-- The additive-merge contract is transitive. -/
theorem persistMono_trans {p q r : PersistenceCfg}
    (h1 : persistMono p q) (h2 : persistMono q r) : persistMono p r := by
  obtain ⟨a1, a2, a3, a4, ⟨s1, e1⟩, ⟨s2, e2⟩, ⟨s3, e3⟩, ⟨s4, e4⟩, ⟨s5, e5⟩, ⟨s6, e6⟩⟩ := h1
  obtain ⟨b1, b2, b3, b4, ⟨t1, f1⟩, ⟨t2, f2⟩, ⟨t3, f3⟩, ⟨t4, f4⟩, ⟨t5, f5⟩, ⟨t6, f6⟩⟩ := h2
  refine ⟨fun h => b1 (a1 h), fun h => b2 (a2 h), fun h => b3 (a3 h), fun h => b4 (a4 h),
    ⟨s1 ++ t1, ?_⟩, ⟨s2 ++ t2, ?_⟩, ⟨s3 ++ t3, ?_⟩, ⟨s4 ++ t4, ?_⟩, ⟨s5 ++ t5, ?_⟩,
    ⟨s6 ++ t6, ?_⟩⟩ <;>
    simp [f1, f2, f3, f4, f5, f6, e1, e2, e3, e4, e5, e6]

/-- Block 1 respects the contract. -/
theorem mergeJmsStep_mono (p : PersistenceCfg) (d : MergeDetails) :
    persistMono p (mergeJmsStep p d) := by
  unfold mergeJmsStep
  split
  · exact ⟨fun _ => rfl, id, id, id, ⟨d.jmsAdapters, rfl⟩, listSelfExt _, listSelfExt _,
      listSelfExt _, listSelfExt _, listSelfExt _⟩
  · exact persistMono_refl p

/-- Block 2 respects the contract. -/
theorem mergeMsgPersistStep_mono (p : PersistenceCfg) (d : MergeDetails) :
    persistMono p (mergeMsgPersistStep p d) := by
  unfold mergeMsgPersistStep
  split
  · exact ⟨id, id, id, fun _ => rfl, listSelfExt _, ⟨d.messagePersistence, rfl⟩, listSelfExt _,
      listSelfExt _, listSelfExt _, listSelfExt _⟩
  · exact persistMono_refl p

/-- Block 3 respects the contract. -/
theorem mergeDataStoreOpsStep_mono (p : PersistenceCfg) (d : MergeDetails) :
    persistMono p (mergeDataStoreOpsStep p d) := by
  unfold mergeDataStoreOpsStep
  split
  · exact ⟨id, fun _ => rfl, id, id, listSelfExt _, listSelfExt _, ⟨d.dataStoreOperations, rfl⟩,
      listSelfExt _, listSelfExt _, listSelfExt _⟩
  · exact persistMono_refl p

/-- Block 4 respects the contract. -/
theorem mergeDataStoreActsStep_mono (p : PersistenceCfg) (d : MergeDetails) :
    persistMono p (mergeDataStoreActsStep p d) := by
  unfold mergeDataStoreActsStep
  split
  · exact ⟨id, fun _ => rfl, id, id, listSelfExt _, listSelfExt _, listSelfExt _,
      ⟨d.dataStoreActivities, rfl⟩, listSelfExt _, listSelfExt _⟩
  · exact persistMono_refl p

/-- Block 5 respects the contract. -/
theorem mergeVarOpsStep_mono (p : PersistenceCfg) (d : MergeDetails) :
    persistMono p (mergeVarOpsStep p d) := by
  unfold mergeVarOpsStep
  split
  · exact ⟨id, id, fun _ => rfl, id, listSelfExt _, listSelfExt _, listSelfExt _,
      listSelfExt _, ⟨d.variableOperations, rfl⟩, listSelfExt _⟩
  · exact persistMono_refl p

/-- Block 6 respects the contract. -/
theorem mergeExtCallsStep_mono (p : PersistenceCfg) (d : MergeDetails) :
    persistMono p (mergeExtCallsStep p d) := by
  unfold mergeExtCallsStep
  split
  · exact ⟨id, id, id, id, listSelfExt _, listSelfExt _, listSelfExt _,
      listSelfExt _, listSelfExt _, ⟨d.externalCalls, rfl⟩⟩
  · exact persistMono_refl p

/-- Blocks 7–9 respect the contract (they touch only the scalar detail
fields). -/
theorem mergeScalarsStep_mono (p : PersistenceCfg) (d : MergeDetails) :
    persistMono p (mergeScalarsStep p d) := by
  unfold mergeScalarsStep
  cases d.directCall <;> split <;> split <;>
    exact ⟨id, id, id, id, listSelfExt _, listSelfExt _, listSelfExt _,
      listSelfExt _, listSelfExt _, listSelfExt _⟩

/-- The full merge respects the additive contract. -/
theorem mergePersistenceDetails_mono (p : PersistenceCfg) (d : MergeDetails) :
    persistMono p (mergePersistenceDetails p d) := by
  unfold mergePersistenceDetails
  exact persistMono_trans (mergeJmsStep_mono p d)
    (persistMono_trans (mergeMsgPersistStep_mono _ d)
      (persistMono_trans (mergeDataStoreOpsStep_mono _ d)
        (persistMono_trans (mergeDataStoreActsStep_mono _ d)
          (persistMono_trans (mergeVarOpsStep_mono _ d)
            (persistMono_trans (mergeExtCallsStep_mono _ d)
              (mergeScalarsStep_mono _ d))))))

/-- C7: a message-flow fragment whose `ComponentType` contains `jms`
(case-insensitively) and which carries a `queueName` property makes the
extracted persistence configuration JMS-enabled with a JMS adapter record
carrying `queueName`; and the merge step only adds records and only raises
booleans. -/
theorem c7_jms_detection_and_additive_merge :
    (∀ (px : ParsedXml) (flow : MessageFlow) (props : List IflProperty),
      flow ∈ getMessageFlows px → flow.ext = some props →
      jsIncludes (jsToLower (jsOrElse (getPropertyValue props "ComponentType") "Unknown"))
        "jms" = true →
      (∃ p ∈ props, p.key = some "queueName") →
      (extractPersistence px).jms_enabled = true ∧
        ∃ cfg ∈ (extractPersistence px).persistence_details.jmsAdapters,
          "queueName" ∈ objKeys cfg.properties) ∧
    (∀ (p : PersistenceCfg) (d : MergeDetails), persistMono p (mergePersistenceDetails p d)) := by
  refine ⟨fun px flow props hmem hext hjms hqn => ?_, mergePersistenceDetails_mono⟩
  have hd : ∃ d, px.definitions = some d := by
    cases hdd : px.definitions with
    | none =>
      unfold getMessageFlows at hmem
      rw [hdd] at hmem
      exact absurd hmem (List.not_mem_nil _)
    | some d => exact ⟨d, rfl⟩
  rcases hd with ⟨defs, hdefs⟩
  have hap : ∃ cfg ∈ (extractAdapterPersistence px).jmsAdapters,
      "queueName" ∈ objKeys cfg.properties :=
    adapterPersistenceAux_jms_mem (getMessageFlows px) 0
      { jmsAdapters := [], messagePersistence := [], dataStoreOperations := [] }
      flow props hmem hext hjms hqn
  rcases hap with ⟨cfg, hcfg, hk⟩
  have hne : (adapterPersistenceDetails (extractAdapterPersistence px)).jmsAdapters ≠ [] := by
    intro hemp
    have : cfg ∈ ([] : List JmsConfig) := by
      rw [← hemp]
      exact hcfg
    exact absurd this (List.not_mem_nil _)
  unfold extractPersistence
  rw [hdefs]
  constructor
  · exact (merge_jms_set _ _ hne).1
  · rw [(merge_jms_set _ _ hne).2]
    exact ⟨cfg, List.mem_append_right _ hcfg, hk⟩

/-- The properties of the Scenario-D JMS fragment. -/
def c7Props : List IflProperty :=
  [mkProp "Name" "JMS_IN", mkProp "direction" "Sender",
   mkProp "ComponentType" "JMS", mkProp "queueName" "orders.q"]

/-- The Scenario-D JMS fragment. -/
def c7Flow : MessageFlow :=
  { id := some "MessageFlow_1", name := none, ext := some c7Props }

/-- The document containing the Scenario-D fragment. -/
def c7Doc : ParsedXml := mkDoc [c7Flow] none

/-- Witness for C7 at the Scenario-D document and a concrete merge
instance. -/
theorem c7_jms_detection_and_additive_merge_witness :
    ((extractPersistence c7Doc).jms_enabled = true ∧
      ∃ cfg ∈ (extractPersistence c7Doc).persistence_details.jmsAdapters,
        "queueName" ∈ objKeys cfg.properties) ∧
      persistMono getDefaultPersistence (mergePersistenceDetails getDefaultPersistence {}) :=
  ⟨c7_jms_detection_and_additive_merge.1 c7Doc c7Flow c7Props (by decide) rfl (by decide)
      ⟨mkProp "queueName" "orders.q", by decide, rfl⟩,
    c7_jms_detection_and_additive_merge.2 getDefaultPersistence {}⟩
